import Mathlib

/-!
Verification of the parking-lot core (data layer `parking_data.c`, service layer
`parking_service.c`) of the Parking-System repository, by a shallow embedding in Lean.

Modelling conventions:
* C `int` and `time_t` values are modelled as `Int`. Enumeration fields
  (`ParkingStatus`, `ParkingType`) are kept as `Int` with the C literal values,
  because the C code stores them in `int`-backed enums and the file loader
  assigns them from `atoi`, so arbitrary integers can appear in those fields.
* C `double` amounts are modelled as exact rationals `ℚ`. All fee arithmetic in
  the source (`ceil` of a quotient of a long by `3600.0` or by
  `SECONDS_PER_MONTH`, multiplication by the rates `10.0` / `200.0`, additions
  into the revenue accumulators) is exact in IEEE double for every duration that
  fits the program lifetime, so `ℚ` with `Int.ceil` is a faithful model.
* Fixed-size C string buffers are modelled as unbounded `String`; the `strncpy`
  truncation at the buffer limits is not modelled. C `strlen` (a byte count) is
  modelled as `String.utf8ByteSize`.
* `NULL`-pointer arguments do not exist in the embedding, so the `-1`
  null-argument branches of the C functions are unreachable and are dropped.
* Calls to `time(NULL)` are modelled by an explicit `now : Int` parameter, and
  `localtime` by an explicit function parameter (`hourOf : Int → Int` for the
  hour used by the visitor window, `localtime : Int → Tm` for the calendar
  decomposition used by the revenue cycle). A C function that calls `time(NULL)`
  more than once in a single execution is modelled with one shared `now`.
* The persisted file is modelled as a `List String` of lines, each line being
  what `fgets` returns with its trailing newline removed (the loader treats
  `\x7cn`, `\x7cr` and end of line alike, and the saver ends every line with a
  newline, so this is faithful; the 512-byte `fgets` buffer limit is not
  modelled).
* `ServiceResult` messages (human-readable text) and the raw `data` payload
  pointer are not modelled; the service functions return their result code, the
  updated lot, and (for deallocation) the optional fee payload.
-/

namespace Parking

/-! ## Constants (`parking_data.h`, `parking_service.c`) -/

def MAX_LOCATION_LEN : Nat := 100
def MAX_NAME_LEN : Nat := 50
def MAX_LICENSE_LEN : Nat := 50
def MAX_CONTACT_LEN : Nat := 50

def RESIDENT_MONTHLY_FEE : ℚ := 200
def VISITOR_HOURLY_FEE : ℚ := 10
def VISITOR_START_HOUR : Int := 9
def VISITOR_END_HOUR : Int := 17

def FREE_STATUS : Int := 0
def OCCUPIED_STATUS : Int := 1
def RESIDENT_TYPE : Int := 0
def VISITOR_TYPE : Int := 1

def MAX_SLOT_ID : Int := 99999
def MIN_LICENSE_LEN : Nat := 5
def MIN_CONTACT_LEN : Nat := 8
def SECONDS_PER_MONTH : Int := 30 * 24 * 3600

/-! ## Data structures (`parking_data.h`) -/

/-- `struct ParkingSlot` without the intrusive `next` pointer (the linked list
is modelled by the order of `ParkingLot.slots`). -/
structure ParkingSlot where
  slot_id : Int
  location : String
  owner_name : String
  license_plate : String
  contact : String
  type : Int
  entry_time : Int
  exit_time : Int
  resident_due_date : Int
  status : Int
deriving DecidableEq

/-- `struct ParkingLot`; `slots` lists the linked list from `slot_head` in
order. -/
structure ParkingLot where
  total_slots : Int
  occupied_slots : Int
  slots : List ParkingSlot
  today_revenue : ℚ
  month_revenue : ℚ
  last_update_time : Int
deriving DecidableEq

/-- The `struct tm` fields that `update_revenue_cycle` inspects. -/
structure Tm where
  tm_year : Int
  tm_mon : Int
  tm_mday : Int
deriving DecidableEq

/-! ## Data layer (`parking_data.c`) -/

/-- `init_parking_lot` (the out-of-memory branch is dropped). -/
def init_parking_lot (total_slots : Int) : ParkingLot :=
  { total_slots := total_slots
    occupied_slots := 0
    slots := []
    today_revenue := 0
    month_revenue := 0
    last_update_time := 0 }

/-- `create_parking_slot` (the out-of-memory branch is dropped). -/
def create_parking_slot (slot_id : Int) (location : String) : ParkingSlot :=
  { slot_id := slot_id
    location := location
    owner_name := ""
    license_plate := ""
    contact := ""
    type := RESIDENT_TYPE
    entry_time := 0
    exit_time := 0
    resident_due_date := 0
    status := FREE_STATUS }

/-- `find_slot_by_id`: first slot in list order with the given id. -/
def find_slot_by_id (lot : ParkingLot) (slot_id : Int) : Option ParkingSlot :=
  lot.slots.find? (fun s => s.slot_id == slot_id)

/-- `find_slot_by_license`: first Occupied slot with the given plate. -/
def find_slot_by_license (lot : ParkingLot) (license_plate : String) : Option ParkingSlot :=
  lot.slots.find? (fun s => s.status == OCCUPIED_STATUS && s.license_plate == license_plate)

/-- `add_parking_slot`: reject duplicate ids with `-2`, else head-insert. -/
def add_parking_slot (lot : ParkingLot) (slot : ParkingSlot) : Int × ParkingLot :=
  if (find_slot_by_id lot slot.slot_id).isSome then (-2, lot)
  else (0, { lot with slots := slot :: lot.slots })

/-- In-place mutation of the first list node satisfying `p`, as done through
the pointer returned by the C find functions. -/
def updateFirst (p : ParkingSlot → Bool) (f : ParkingSlot → ParkingSlot) :
    List ParkingSlot → List ParkingSlot
  | [] => []
  | s :: rest => if p s then f s :: rest else s :: updateFirst p f rest

/-- `is_valid_visitor_time`, with `localtime(t)->tm_hour` abstracted as
`hourOf t`. -/
def is_valid_visitor_time (hourOf : Int → Int) (entry_time : Int) : Bool :=
  decide (VISITOR_START_HOUR ≤ hourOf entry_time ∧ hourOf entry_time < VISITOR_END_HOUR)

/-- `allocate_slot`; `current_time` stands for the internal `time(NULL)` call. -/
def allocate_slot (hourOf : Int → Int) (current_time : Int) (lot : ParkingLot)
    (slot_id : Int) (owner_name license_plate contact : String) (ty : Int) :
    Int × ParkingLot :=
  match find_slot_by_id lot slot_id with
  | none => (-2, lot)
  | some slot =>
    if slot.status == OCCUPIED_STATUS then (-3, lot)
    else if (find_slot_by_license lot license_plate).isSome then (-4, lot)
    else if ty == VISITOR_TYPE && !is_valid_visitor_time hourOf current_time then (-5, lot)
    else
      (0, { lot with
            slots := updateFirst (fun s => s.slot_id == slot_id)
              (fun s => { s with
                owner_name := owner_name
                license_plate := license_plate
                contact := contact
                type := ty
                entry_time := current_time
                exit_time := 0
                status := OCCUPIED_STATUS }) lot.slots
            occupied_slots := lot.occupied_slots + 1 })

/-- `deallocate_slot`; `current_time` stands for the internal `time(NULL)`. -/
def deallocate_slot (current_time : Int) (lot : ParkingLot) (slot_id : Int) :
    Int × ParkingLot :=
  match find_slot_by_id lot slot_id with
  | none => (-2, lot)
  | some slot =>
    if slot.status == FREE_STATUS then (-3, lot)
    else
      (0, { lot with
            slots := updateFirst (fun s => s.slot_id == slot_id)
              (fun s => { s with
                exit_time := current_time
                owner_name := ""
                license_plate := ""
                contact := ""
                status := FREE_STATUS }) lot.slots
            occupied_slots := lot.occupied_slots - 1 })

/-- The list traversal of `delete_slot`: returns the C result code and the list
after the traversal (unchanged unless the code is `0`). -/
def delete_from_list (slot_id : Int) : List ParkingSlot → Int × List ParkingSlot
  | [] => (-3, [])
  | s :: rest =>
    if s.slot_id == slot_id then
      if s.status == OCCUPIED_STATUS then (-2, s :: rest)
      else (0, rest)
    else
      let r := delete_from_list slot_id rest
      (r.1, s :: r.2)

/-- `delete_slot`: remove the first id match if Free, decrementing
`total_slots`. -/
def delete_slot (lot : ParkingLot) (slot_id : Int) : Int × ParkingLot :=
  let r := delete_from_list slot_id lot.slots
  if r.1 == 0 then
    (0, { lot with slots := r.2, total_slots := lot.total_slots - 1 })
  else
    (r.1, { lot with slots := r.2 })

/-- `calculate_visitor_fee`: whole started hours times the hourly rate. -/
def calculate_visitor_fee (entry_time exit_time : Int) : ℚ :=
  if exit_time ≤ entry_time then 0
  else
    let duration_seconds : Int := exit_time - entry_time
    let hours : ℚ := (duration_seconds : ℚ) / 3600
    (⌈hours⌉ : ℚ) * VISITOR_HOURLY_FEE

/-- Number of slots whose status is `OCCUPIED_STATUS` (the count recomputed by
`load_parking_data`). -/
def countOccupied (slots : List ParkingSlot) : Nat :=
  (slots.filter (fun s => s.status == OCCUPIED_STATUS)).length

/-! ## Service layer (`parking_service.c`) -/

def PARKING_SERVICE_SUCCESS : Int := 0
def PARKING_SERVICE_INVALID_PARAM : Int := -1
def PARKING_SERVICE_SLOT_EXISTS : Int := -2
def PARKING_SERVICE_SLOT_NOT_FOUND : Int := -3
def PARKING_SERVICE_SLOT_OCCUPIED : Int := -4
def PARKING_SERVICE_SLOT_FREE : Int := -5
def PARKING_SERVICE_LICENSE_EXISTS : Int := -6
def PARKING_SERVICE_TIME_INVALID : Int := -7
def PARKING_SERVICE_MEMORY_ERROR : Int := -8
def PARKING_SERVICE_FILE_ERROR : Int := -9
def PARKING_SERVICE_SYSTEM_ERROR : Int := -10

/-- C `strlen`: the byte length of the UTF-8 encoding. -/
def strlen (s : String) : Nat := s.utf8ByteSize

/-- `validate_slot_id`. -/
def validate_slot_id (slot_id : Int) : Bool :=
  decide (0 < slot_id ∧ slot_id ≤ MAX_SLOT_ID)

/-- `validate_license_plate`: only the `strlen` bounds are checked. -/
def validate_license_plate (license : String) : Bool :=
  decide (MIN_LICENSE_LEN ≤ strlen license ∧ strlen license < MAX_LICENSE_LEN)

/-- `validate_contact`: `strlen` bounds plus an all-bytes-are-ASCII-digits scan.
The C scan is over bytes; a string passes it exactly when every character is an
ASCII digit (any non-ASCII character contributes a byte `≥ 0x80`, which fails
the byte test), so the per-character test below is equivalent. -/
def validate_contact (contact : String) : Bool :=
  decide (MIN_CONTACT_LEN ≤ strlen contact ∧ strlen contact < MAX_CONTACT_LEN) &&
    contact.data.all (fun c => decide ('0' ≤ c ∧ c ≤ '9'))

/-- `update_revenue_cycle`, with `time(NULL)` as `now` and the calendar
decomposition of the C library's `localtime` as the pure argument `localtime`.
The C `localtime` returns a pointer into one static `struct tm` buffer, so the
second call (for `last_update_time`) overwrites the result of the first (for
`now`): at comparison time `tm_now` and `tm_last` alias that buffer, which
holds the decomposition of `last_update_time`. The model therefore binds both
to the same decomposition. -/
def update_revenue_cycle (localtime : Int → Tm) (now : Int) (lot : ParkingLot) :
    ParkingLot :=
  if lot.last_update_time == 0 then { lot with last_update_time := now }
  else
    let buffer := localtime lot.last_update_time
    let tm_now := buffer
    let tm_last := buffer
    if tm_now.tm_year > tm_last.tm_year ∨ tm_now.tm_mon > tm_last.tm_mon then
      { lot with month_revenue := 0, today_revenue := 0, last_update_time := now }
    else if tm_now.tm_mday > tm_last.tm_mday then
      { lot with today_revenue := 0, last_update_time := now }
    else
      { lot with last_update_time := now }

/-- `parking_service_allocate_slot`: validation, then the data layer call, then
the result-code mapping of the C `switch`. -/
def parking_service_allocate_slot (hourOf : Int → Int) (now : Int) (lot : ParkingLot)
    (slot_id : Int) (owner_name license_plate contact : String) (ty : Int) :
    Int × ParkingLot :=
  if !(validate_slot_id slot_id && validate_license_plate license_plate &&
        validate_contact contact) then
    (PARKING_SERVICE_INVALID_PARAM, lot)
  else
    let r := allocate_slot hourOf now lot slot_id owner_name license_plate contact ty
    if r.1 == 0 then (PARKING_SERVICE_SUCCESS, r.2)
    else if r.1 == -2 then (PARKING_SERVICE_SLOT_NOT_FOUND, r.2)
    else if r.1 == -3 then (PARKING_SERVICE_SLOT_OCCUPIED, r.2)
    else if r.1 == -4 then (PARKING_SERVICE_LICENSE_EXISTS, r.2)
    else if r.1 == -5 then (PARKING_SERVICE_TIME_INVALID, r.2)
    else (PARKING_SERVICE_SYSTEM_ERROR, r.2)

/-- `parking_service_deallocate_slot`: returns the result code, the fee payload
(`some fee` exactly when the C function returns a malloc-ed fee, i.e. when
`fee > 0`), and the updated lot. The three `time(NULL)` reads of the execution
are modelled by the single `now`. -/
def parking_service_deallocate_slot (localtime : Int → Tm) (now : Int)
    (lot : ParkingLot) (slot_id : Int) : Int × Option ℚ × ParkingLot :=
  if !validate_slot_id slot_id then (PARKING_SERVICE_INVALID_PARAM, none, lot)
  else
    match find_slot_by_id lot slot_id with
    | none => (PARKING_SERVICE_SLOT_NOT_FOUND, none, lot)
    | some slot =>
      if slot.status == FREE_STATUS then (PARKING_SERVICE_SLOT_FREE, none, lot)
      else
        let feeAndLot : ℚ × ParkingLot :=
          if slot.type == RESIDENT_TYPE then
            if slot.resident_due_date > 0 && now > slot.resident_due_date then
              let overdue_months : Int :=
                ⌈((now - slot.resident_due_date : Int) : ℚ) / (SECONDS_PER_MONTH : ℚ)⌉
              let upd := updateFirst (fun s => s.slot_id == slot_id)
                (fun s => { s with resident_due_date :=
                  s.resident_due_date + overdue_months * SECONDS_PER_MONTH }) lot.slots
              ((overdue_months : ℚ) * RESIDENT_MONTHLY_FEE, { lot with slots := upd })
            else (0, lot)
          else (calculate_visitor_fee slot.entry_time now, lot)
        let fee := feeAndLot.1
        let lot1 := feeAndLot.2
        let lot2 :=
          if 0 < fee then
            let l := update_revenue_cycle localtime now lot1
            { l with
              today_revenue := l.today_revenue + fee
              month_revenue := l.month_revenue + fee }
          else lot1
        let r := deallocate_slot now lot2 slot_id
        if r.1 != 0 then (PARKING_SERVICE_SYSTEM_ERROR, none, r.2)
        else if 0 < fee then (PARKING_SERVICE_SUCCESS, some fee, r.2)
        else (PARKING_SERVICE_SUCCESS, none, r.2)

/-! ## Persistence codec (`save_parking_data` / `load_parking_data`) -/

/-- The whitespace class of C `isspace`, used by `atoi` and `sscanf`. -/
def isSpaceC (c : Char) : Bool :=
  c == ' ' || c == '\t' || c == '\n' || c == '\x0b' || c == '\x0c' || c == '\r'

/-- Digit-consuming loop shared by the `atoi` and `sscanf %d` models. -/
def atoiCore : List Char → Nat → Nat
  | [], acc => acc
  | c :: cs, acc => if c.isDigit then atoiCore cs (10 * acc + (c.toNat - 48)) else acc

/-- Reference decimal digit list of a natural number, used to reason about the
`Nat.toDigits` printer behind `toString` (most significant digit first). -/
def natDigits (n : Nat) : List Char :=
  if h : n < 10 then [Nat.digitChar (n % 10)]
  else natDigits (n / 10) ++ [Nat.digitChar (n % 10)]
termination_by n
decreasing_by
  exact Nat.div_lt_self (by omega) (by omega)

/-- Pipe-joined field list, the shape of the text written by
`save_parking_data` after a record marker. -/
def pipeJoin : List (List Char) → List Char
  | [] => []
  | [f] => f
  | f :: fs => f ++ '|' :: pipeJoin fs

/-- C `atoi` / `atoll`: skip whitespace, optional sign, leading digits; `0` when
no digits follow. Overflow is not modelled. -/
def atoiChars (cs : List Char) : Int :=
  match cs.dropWhile isSpaceC with
  | [] => 0
  | c :: rest =>
    if c = '-' then -(atoiCore rest 0 : Int)
    else if c = '+' then (atoiCore rest 0 : Int)
    else (atoiCore (c :: rest) 0 : Int)

/-- `sscanf(line, "%d")` after a matched literal: requires at least one digit
after the optional whitespace and sign, else the conversion fails. -/
def scanIntStrict (cs : List Char) : Option Int :=
  match cs.dropWhile isSpaceC with
  | [] => none
  | c :: rest =>
    if c = '-' then
      match rest with
      | [] => none
      | d :: _ => if d.isDigit then some (-(atoiCore rest 0 : Int)) else none
    else if c = '+' then
      match rest with
      | [] => none
      | d :: _ => if d.isDigit then some ((atoiCore rest 0 : Int)) else none
    else if c.isDigit then some ((atoiCore (c :: rest) 0 : Int)) else none

/-- The `sscanf(line, "LOT|%d", &total)` parse of the first line. -/
def scanLotTotal (line : String) : Option Int :=
  match line.data with
  | 'L' :: 'O' :: 'T' :: '|' :: rest => scanIntStrict rest
  | _ => none

/-- The loader field walk stops at the first newline or carriage return. -/
def truncEol (cs : List Char) : List Char :=
  cs.takeWhile (fun c => !(c == '\n' || c == '\r'))

/-- Split on every pipe character, as the loader field walk does (adjacent
pipes give empty fields; the final, possibly empty, field is included). -/
def splitPipe : List Char → List (List Char)
  | [] => [[]]
  | c :: cs =>
    if c == '|' then [] :: splitPipe cs
    else
      match splitPipe cs with
      | [] => [[c]]
      | f :: fs => (c :: f) :: fs

/-- `parse_and_assign_field`: assign one parsed field by index. -/
def parse_and_assign_field (slot : ParkingSlot) (index : Nat) (value : List Char) :
    ParkingSlot :=
  match index with
  | 0 => { slot with slot_id := atoiChars value }
  | 1 => { slot with location := String.mk value }
  | 2 => { slot with owner_name := String.mk value }
  | 3 => { slot with license_plate := String.mk value }
  | 4 => { slot with contact := String.mk value }
  | 5 => { slot with type := atoiChars value }
  | 6 => { slot with entry_time := atoiChars value }
  | 7 => { slot with exit_time := atoiChars value }
  | 8 => { slot with status := atoiChars value }
  | 9 => { slot with resident_due_date := atoiChars value }
  | _ => slot

/-- The `memset(slot, 0, sizeof(ParkingSlot))` starting point of a loaded
slot. -/
def zeroSlot : ParkingSlot :=
  { slot_id := 0
    location := ""
    owner_name := ""
    license_plate := ""
    contact := ""
    type := 0
    entry_time := 0
    exit_time := 0
    resident_due_date := 0
    status := 0 }

/-- The field walk of `load_parking_data` applied to the text after the
`SLOT|` marker: at most the first ten fields are assigned. -/
def parseSlotFields (rest : List Char) : ParkingSlot :=
  (((splitPipe (truncEol rest)).take 10).enum).foldl
    (fun sl iv => parse_and_assign_field sl iv.1 iv.2) zeroSlot

/-- Whether a line begins with the `SLOT|` record marker
(`strncmp(line, "SLOT|", 5) == 0`). -/
def isSlotLine (line : String) : Bool :=
  match line.data with
  | 'S' :: 'L' :: 'O' :: 'T' :: '|' :: _ => true
  | _ => false

/-- The per-line loop of `load_parking_data` over the lines after the `LOT`
line. -/
def loadSlotLines (lines : List String) (lot : ParkingLot) : ParkingLot :=
  match lines with
  | [] => lot
  | line :: rest =>
    if isSlotLine line then
      loadSlotLines rest (add_parking_slot lot (parseSlotFields (line.data.drop 5))).2
    else
      loadSlotLines rest lot

/-- `load_parking_data` over the file contents as a list of lines. -/
def load_parking_data (file : List String) : Option ParkingLot :=
  match file with
  | [] => none
  | first :: rest =>
    match scanLotTotal first with
    | some total =>
      if 0 < total then
        let lot := loadSlotLines rest (init_parking_lot total)
        some { lot with occupied_slots := (countOccupied lot.slots : Int) }
      else none
    | none => none

/-- One `SLOT` line of `save_parking_data` (Occupied slots with all fields,
Free slots with empty strings and zero times). -/
def slotLine (s : ParkingSlot) : String :=
  if s.status == OCCUPIED_STATUS then
    "SLOT|" ++ toString s.slot_id ++ "|" ++ s.location ++ "|" ++ s.owner_name ++ "|" ++
      s.license_plate ++ "|" ++ s.contact ++ "|" ++ toString s.type ++ "|" ++
      toString s.entry_time ++ "|" ++ toString s.exit_time ++ "|" ++
      toString s.status ++ "|" ++ toString s.resident_due_date
  else
    "SLOT|" ++ toString s.slot_id ++ "|" ++ s.location ++ "||||" ++ toString s.type ++
      "|0|0|" ++ toString s.status ++ "|0"

/-- `save_parking_data`: the `LOT` header line followed by one `SLOT` line per
slot in list order. -/
def save_parking_data (lot : ParkingLot) : List String :=
  ("LOT|" ++ toString lot.total_slots) :: lot.slots.map slotLine

/-- What a slot record becomes after one save and load: Occupied slots keep
every field, Free slots keep id, location, type and status while the occupant
fields and timestamps are written out as empty and zero. -/
def loadImage (s : ParkingSlot) : ParkingSlot :=
  if s.status == OCCUPIED_STATUS then s
  else
    { s with
      owner_name := ""
      license_plate := ""
      contact := ""
      entry_time := 0
      exit_time := 0
      resident_due_date := 0 }

/-- A string is safe for the pipe-delimited format when it contains no field
separator and no line terminator. -/
abbrev strOk (s : String) : Prop :=
  ∀ c ∈ s.data, c ≠ '|' ∧ c ≠ '\n' ∧ c ≠ '\r'

/-! ## Reachability by the four lifecycle mutators -/

/-- Lot states reachable from an initial empty lot by any sequence of
`add_parking_slot` (of a `create_parking_slot` slot, as in
`parking_service_add_slot`), `allocate_slot`, `deallocate_slot` and
`delete_slot` calls, under arbitrary clocks. -/
inductive Reachable : ParkingLot → Prop
  | init (total : Int) : Reachable (init_parking_lot total)
  | add (lot : ParkingLot) (slot_id : Int) (location : String) : Reachable lot →
      Reachable (add_parking_slot lot (create_parking_slot slot_id location)).2
  | alloc (lot : ParkingLot) (hourOf : Int → Int) (now slot_id : Int)
      (owner_name license_plate contact : String) (ty : Int) : Reachable lot →
      Reachable (allocate_slot hourOf now lot slot_id owner_name license_plate contact ty).2
  | dealloc (lot : ParkingLot) (now slot_id : Int) : Reachable lot →
      Reachable (deallocate_slot now lot slot_id).2
  | del (lot : ParkingLot) (slot_id : Int) : Reachable lot →
      Reachable (delete_slot lot slot_id).2

/-! ## Concrete fixtures used by witnesses -/

/-- A lot holding one Occupied Resident slot (id 1, due date 100) and one Free
slot (id 2), as the program could build it. -/
def demoOccupiedSlot : ParkingSlot :=
  { slot_id := 1
    location := "A-01"
    owner_name := "Zhang"
    license_plate := "PLATE1"
    contact := "12345678"
    type := RESIDENT_TYPE
    entry_time := 100
    exit_time := 0
    resident_due_date := 100
    status := OCCUPIED_STATUS }

def demoFreeSlot : ParkingSlot := create_parking_slot 2 "B-02"

def demoLot : ParkingLot :=
  { total_slots := 2
    occupied_slots := 1
    slots := [demoOccupiedSlot, demoFreeSlot]
    today_revenue := 0
    month_revenue := 0
    last_update_time := 5 }

/-- A lot holding one Occupied Resident slot whose due date is negative, as a
crafted data file can produce through `load_parking_data`. -/
def negativeDueLot : ParkingLot :=
  { total_slots := 1
    occupied_slots := 1
    slots := [{ demoOccupiedSlot with resident_due_date := -1 }]
    today_revenue := 0
    month_revenue := 0
    last_update_time := 0 }

/-! ## General helper lemmas -/

theorem find?_decomp (p : ParkingSlot → Bool) (l : List ParkingSlot) (x : ParkingSlot)
    (h : l.find? p = some x) :
    ∃ l1 l2, l = l1 ++ x :: l2 ∧ (∀ y ∈ l1, p y = false) ∧ p x = true := by
  induction l with
  | nil => simp at h
  | cons a rest ih =>
    by_cases hpa : p a
    · rw [List.find?_cons_of_pos _ hpa] at h
      obtain rfl := Option.some.inj h
      exact ⟨[], rest, by simp, by simp, hpa⟩
    · rw [List.find?_cons_of_neg _ hpa] at h
      obtain ⟨l1, l2, rfl, h1, h2⟩ := ih h
      refine ⟨a :: l1, l2, rfl, ?_, h2⟩
      intro y hy
      rcases List.mem_cons.mp hy with rfl | hy
      · exact Bool.eq_false_iff.mpr hpa
      · exact h1 y hy

theorem find?_append_cons (p : ParkingSlot → Bool) (l1 l2 : List ParkingSlot)
    (x : ParkingSlot) (h1 : ∀ y ∈ l1, p y = false) (hx : p x = true) :
    (l1 ++ x :: l2).find? p = some x := by
  induction l1 with
  | nil => simpa using List.find?_cons_of_pos l2 hx
  | cons a rest ih =>
    have ha : p a = false := h1 a (by simp)
    rw [List.cons_append, List.find?_cons_of_neg _ (by simp [ha])]
    exact ih (fun y hy => h1 y (by simp [hy]))

theorem updateFirst_append_cons (p : ParkingSlot → Bool) (f : ParkingSlot → ParkingSlot)
    (l1 l2 : List ParkingSlot) (x : ParkingSlot)
    (h1 : ∀ y ∈ l1, p y = false) (hx : p x = true) :
    updateFirst p f (l1 ++ x :: l2) = l1 ++ f x :: l2 := by
  induction l1 with
  | nil => simp [updateFirst, hx]
  | cons a rest ih =>
    have ha : p a = false := h1 a (by simp)
    simp [updateFirst, ha, ih (fun y hy => h1 y (by simp [hy]))]

theorem updateFirst_map (p : ParkingSlot → Bool) (f : ParkingSlot → ParkingSlot)
    (g : ParkingSlot → Int × Int) (l : List ParkingSlot) (h : ∀ x, g (f x) = g x) :
    (updateFirst p f l).map g = l.map g := by
  induction l with
  | nil => rfl
  | cons a rest ih =>
    by_cases hpa : p a
    · simp [updateFirst, hpa, h a]
    · simp [updateFirst, hpa, ih]

theorem countOccupied_append (l1 l2 : List ParkingSlot) :
    countOccupied (l1 ++ l2) = countOccupied l1 + countOccupied l2 := by
  simp [countOccupied, List.filter_append]

theorem countOccupied_cons (s : ParkingSlot) (l : List ParkingSlot) :
    countOccupied (s :: l) =
      (if s.status = OCCUPIED_STATUS then 1 else 0) + countOccupied l := by
  by_cases h : s.status = OCCUPIED_STATUS
  · simp [countOccupied, List.filter_cons, h, Nat.add_comm]
  · simp [countOccupied, List.filter_cons, h]

theorem delete_from_list_code_ne_zero (slot_id : Int) (l : List ParkingSlot)
    (h : (delete_from_list slot_id l).1 ≠ 0) : (delete_from_list slot_id l).2 = l := by
  induction l with
  | nil => simp [delete_from_list]
  | cons s rest ih =>
    by_cases hid : s.slot_id = slot_id
    · by_cases hocc : s.status = OCCUPIED_STATUS
      · simp [delete_from_list, hid, hocc]
      · simp [delete_from_list, hid, hocc] at h
    · simp only [delete_from_list, beq_iff_eq, hid, if_false] at h ⊢
      simp [ih h]

theorem delete_from_list_zero (slot_id : Int) (l : List ParkingSlot)
    (h : (delete_from_list slot_id l).1 = 0) :
    ∃ l1 x l2, l = l1 ++ x :: l2 ∧ (delete_from_list slot_id l).2 = l1 ++ l2 ∧
      x.slot_id = slot_id ∧ x.status ≠ OCCUPIED_STATUS := by
  induction l with
  | nil => simp [delete_from_list] at h
  | cons s rest ih =>
    by_cases hid : s.slot_id = slot_id
    · by_cases hocc : s.status = OCCUPIED_STATUS
      · simp [delete_from_list, hid, hocc] at h
      · exact ⟨[], s, rest, by simp, by simp [delete_from_list, hid, hocc], hid, hocc⟩
    · have h' : (delete_from_list slot_id rest).1 = 0 := by
        simpa [delete_from_list, hid] using h
      obtain ⟨l1, x, l2, heq, hres, hx1, hx2⟩ := ih h'
      refine ⟨s :: l1, x, l2, by simp [heq], ?_, hx1, hx2⟩
      simp [delete_from_list, hid, hres]

theorem delete_from_list_occupied (slot_id : Int) (l : List ParkingSlot) (x : ParkingSlot)
    (hf : l.find? (fun s => s.slot_id == slot_id) = some x)
    (hocc : x.status = OCCUPIED_STATUS) :
    delete_from_list slot_id l = (-2, l) := by
  induction l with
  | nil => simp at hf
  | cons s rest ih =>
    by_cases hid : s.slot_id = slot_id
    · rw [List.find?_cons_of_pos _ (by simp [hid])] at hf
      obtain rfl := Option.some.inj hf
      simp [delete_from_list, hid, hocc]
    · rw [List.find?_cons_of_neg _ (by simp [hid])] at hf
      simp [delete_from_list, hid, ih hf]

theorem update_revenue_cycle_slots (localtime : Int → Tm) (now : Int) (lot : ParkingLot) :
    (update_revenue_cycle localtime now lot).slots = lot.slots := by
  unfold update_revenue_cycle
  dsimp only
  split_ifs <;> rfl

/-! ## Claim theorems -/

/-- C2 (code bug): the claimed day/month revenue resets can never happen in
the program. Both `localtime` calls of `update_revenue_cycle` return the same
static buffer, so every calendar comparison is a self-comparison and is false:
for every lot, clock and calendar decomposition the function leaves
`today_revenue` and `month_revenue` unchanged and only sets
`last_update_time := now`. The second conjunct evaluates the failing input:
a day advance (local day 5 to day 9) that the claim says must reset
`today_revenue` to `0`, yet it stays `5`; likewise a month advance preserves
`month_revenue = 7`. -/
theorem update_revenue_cycle_never_resets (localtime : Int → Tm) (now : Int)
    (lot : ParkingLot) :
    ((update_revenue_cycle localtime now lot).today_revenue = lot.today_revenue ∧
     (update_revenue_cycle localtime now lot).month_revenue = lot.month_revenue ∧
     (update_revenue_cycle localtime now lot).last_update_time = now) ∧
    (update_revenue_cycle (fun t => Tm.mk 0 0 t) 9
        { demoLot with today_revenue := 5, month_revenue := 7 }).today_revenue = 5 ∧
    (update_revenue_cycle (fun t => Tm.mk 0 t 0) 9
        { demoLot with today_revenue := 5, month_revenue := 7 }).month_revenue = 7 := by
  refine ⟨?_, by decide, by decide⟩
  unfold update_revenue_cycle
  dsimp only
  split_ifs with h1 h2 h3
  · exact ⟨rfl, rfl, rfl⟩
  · exact absurd h2 (by simp)
  · exact absurd h3 (by simp)
  · exact ⟨rfl, rfl, rfl⟩

/-- C3: `calculate_visitor_fee` returns `0` when `exit ≤ entry`, otherwise the
started-hours count times the hourly rate `10`, hence at least `10` for any
positive duration; with the concrete values of the spec at durations
`0`, `1 s`, `3600 s` and `3601 s`. -/
theorem calculate_visitor_fee_spec (entry exit : Int) :
    (exit ≤ entry → calculate_visitor_fee entry exit = 0) ∧
    (entry < exit →
      calculate_visitor_fee entry exit =
        (⌈((exit - entry : Int) : ℚ) / 3600⌉ : ℚ) * 10 ∧
      10 ≤ calculate_visitor_fee entry exit) ∧
    calculate_visitor_fee entry entry = 0 ∧
    calculate_visitor_fee entry (entry + 1) = 10 ∧
    calculate_visitor_fee entry (entry + 3600) = 10 ∧
    calculate_visitor_fee entry (entry + 3601) = 20 := by
  have hceil : ∀ d : Int, 0 < d → (1 : ℤ) ≤ ⌈((d : ℚ)) / 3600⌉ := by
    intro d hd
    have hpos : (0 : ℚ) < (d : ℚ) / 3600 := by
      apply div_pos
      · exact_mod_cast hd
      · norm_num
    exact Int.ceil_pos.mpr hpos
  have hgen : ∀ d : Int, 0 < d →
      calculate_visitor_fee entry (entry + d) = (⌈((d : ℚ)) / 3600⌉ : ℚ) * 10 := by
    intro d hd
    have hne : ¬ entry + d ≤ entry := by omega
    simp only [calculate_visitor_fee, hne, if_false, VISITOR_HOURLY_FEE]
    norm_num
  refine ⟨?_, ?_, ?_, ?_, ?_, ?_⟩
  · intro h
    simp [calculate_visitor_fee, h]
  · intro h
    have hne : ¬ exit ≤ entry := not_le.mpr h
    constructor
    · simp [calculate_visitor_fee, hne, VISITOR_HOURLY_FEE]
    · have h1 := hceil (exit - entry) (by omega)
      have h1q : (1 : ℚ) ≤ (⌈((exit - entry : Int) : ℚ) / 3600⌉ : ℚ) := by
        exact_mod_cast h1
      simp only [calculate_visitor_fee, hne, if_false, VISITOR_HOURLY_FEE]
      nlinarith [h1q]
  · simp [calculate_visitor_fee]
  · rw [hgen 1 (by omega)]
    have : (⌈((1 : Int) : ℚ) / 3600⌉ : ℤ) = 1 := by
      rw [Int.ceil_eq_iff]; norm_num
    rw [this]
    norm_num
  · rw [hgen 3600 (by omega)]
    have : (⌈((3600 : Int) : ℚ) / 3600⌉ : ℤ) = 1 := by
      rw [Int.ceil_eq_iff]; norm_num
    rw [this]
    norm_num
  · rw [hgen 3601 (by omega)]
    have : (⌈((3601 : Int) : ℚ) / 3600⌉ : ℤ) = 2 := by
      rw [Int.ceil_eq_iff]; norm_num
    rw [this]
    norm_num

/-- C3 witness: the theorem instantiated at `entry = 100`, discharging the
positive-duration hypothesis at `exit = 103601`. -/
theorem calculate_visitor_fee_spec_witness :
    calculate_visitor_fee 100 103700 =
      (⌈((103700 - 100 : Int) : ℚ) / 3600⌉ : ℚ) * 10 ∧
    10 ≤ calculate_visitor_fee 100 103700 ∧
    calculate_visitor_fee 100 (100 + 3601) = 20 := by
  have h := calculate_visitor_fee_spec 100 103700
  exact ⟨(h.2.1 (by norm_num)).1, (h.2.1 (by norm_num)).2, h.2.2.2.2.2⟩

/-- C7 counterexample: a successful `add_parking_slot` leaves `total_slots`
unchanged (`5`), while the claim demands that it be incremented to `6`. -/
theorem add_parking_slot_total_counterexample :
    (add_parking_slot (init_parking_lot 5) (create_parking_slot 1 "A")).1 = 0 ∧
    (add_parking_slot (init_parking_lot 5) (create_parking_slot 1 "A")).2.total_slots = 5 ∧
    ¬((add_parking_slot (init_parking_lot 5) (create_parking_slot 1 "A")).2.total_slots =
        (init_parking_lot 5).total_slots + 1) := by
  decide

/-- C7 (amended): `total_slots` is set by `init_parking_lot` to the declared
capacity, is left unchanged by `add_parking_slot` (successful or not), is
decremented by every successful `delete_slot`, and is left unchanged by a
failing `delete_slot`. -/
theorem total_slots_spec (n : Int) (lot : ParkingLot) (slot : ParkingSlot) (slot_id : Int) :
    (init_parking_lot n).total_slots = n ∧
    (add_parking_slot lot slot).2.total_slots = lot.total_slots ∧
    ((delete_slot lot slot_id).1 = 0 →
      (delete_slot lot slot_id).2.total_slots = lot.total_slots - 1) ∧
    ((delete_slot lot slot_id).1 ≠ 0 →
      (delete_slot lot slot_id).2.total_slots = lot.total_slots) := by
  refine ⟨rfl, ?_, ?_, ?_⟩
  · unfold add_parking_slot
    split <;> rfl
  · intro h
    unfold delete_slot at h ⊢
    by_cases hc : (delete_from_list slot_id lot.slots).1 = 0
    · simp [hc]
    · simp [hc] at h
  · intro h
    unfold delete_slot at h ⊢
    by_cases hc : (delete_from_list slot_id lot.slots).1 = 0
    · simp [hc] at h
    · simp [hc]

/-- C7 witness: deleting the Free slot of the demo lot decrements
`total_slots` from 2 to 1. -/
theorem total_slots_spec_witness :
    (delete_slot demoLot 2).1 = 0 ∧ (delete_slot demoLot 2).2.total_slots = 2 - 1 := by
  refine ⟨by decide, ?_⟩
  have h := (total_slots_spec 2 demoLot demoFreeSlot 2).2.2.1 (by decide)
  simpa [demoLot] using h

/-- C6: an operation against a slot in the wrong state fails with its
designated error code and leaves the lot unchanged: allocating an Occupied slot
fails with `SLOT_OCCUPIED` through the service layer, deleting an Occupied slot
fails with the in-use code `-2` of `delete_slot`, and deallocating a Free slot
fails with `SLOT_FREE`; in every case the returned lot is the input lot. -/
theorem wrong_state_ops_fail (hourOf : Int → Int) (localtime : Int → Tm) (now : Int)
    (lot : ParkingLot) (slot_id : Int) (slot : ParkingSlot)
    (hfind : find_slot_by_id lot slot_id = some slot)
    (owner license contact : String) (ty : Int)
    (hid : validate_slot_id slot_id = true)
    (hlic : validate_license_plate license = true)
    (hct : validate_contact contact = true) :
    (slot.status = OCCUPIED_STATUS →
      parking_service_allocate_slot hourOf now lot slot_id owner license contact ty =
        (PARKING_SERVICE_SLOT_OCCUPIED, lot) ∧
      delete_slot lot slot_id = (-2, lot)) ∧
    (slot.status = FREE_STATUS →
      parking_service_deallocate_slot localtime now lot slot_id =
        (PARKING_SERVICE_SLOT_FREE, none, lot)) := by
  constructor
  · intro hocc
    constructor
    · unfold parking_service_allocate_slot
      rw [hid, hlic, hct]
      unfold allocate_slot
      rw [hfind]
      simp [hocc]
    · have h := delete_from_list_occupied slot_id lot.slots slot hfind hocc
      unfold delete_slot
      rw [h]
      norm_num
  · intro hfree
    unfold parking_service_deallocate_slot
    rw [hid, hfind]
    simp [hfree]

/-- C6 witness: the theorem applied to the demo lot, at its Occupied slot 1 and
at its Free slot 2. -/
theorem wrong_state_ops_fail_witness :
    (parking_service_allocate_slot (fun _ => 10) 0 demoLot 1 "Wang" "PLATE2" "87654321"
        RESIDENT_TYPE = (PARKING_SERVICE_SLOT_OCCUPIED, demoLot) ∧
      delete_slot demoLot 1 = (-2, demoLot)) ∧
    parking_service_deallocate_slot (fun _ => Tm.mk 0 0 0) 0 demoLot 2 =
      (PARKING_SERVICE_SLOT_FREE, none, demoLot) := by
  constructor
  · exact (wrong_state_ops_fail (fun _ => 10) (fun _ => Tm.mk 0 0 0) 0 demoLot 1
      demoOccupiedSlot (by decide) "Wang" "PLATE2" "87654321" RESIDENT_TYPE
      (by decide) (by decide) (by decide)).1 (by decide)
  · exact (wrong_state_ops_fail (fun _ => 10) (fun _ => Tm.mk 0 0 0) 0 demoLot 2
      demoFreeSlot (by decide) "Wang" "PLATE2" "87654321" RESIDENT_TYPE
      (by decide) (by decide) (by decide)).2 (by decide)

/-- C10: the service-layer allocation rejects, with `INVALID_PARAM` and an
unchanged lot, every call whose license plate is shorter than 5 bytes or at
least 50 bytes, or whose contact is not a string of 8 to 49 digit characters
(`strlen` counts bytes, and the all-digit test makes byte and character counts
agree); the rejection is independent of the lot, the clock and the slot id, so
it precedes the slot-existence, occupancy, duplicate-plate and visitor-window
checks. -/
theorem allocate_rejects_invalid_params (hourOf : Int → Int) (now : Int)
    (lot : ParkingLot) (slot_id : Int) (owner license contact : String) (ty : Int)
    (h : strlen license < MIN_LICENSE_LEN ∨ MAX_LICENSE_LEN ≤ strlen license ∨
      ¬(MIN_CONTACT_LEN ≤ strlen contact ∧ strlen contact < MAX_CONTACT_LEN ∧
        ∀ c ∈ contact.data, '0' ≤ c ∧ c ≤ '9')) :
    parking_service_allocate_slot hourOf now lot slot_id owner license contact ty =
      (PARKING_SERVICE_INVALID_PARAM, lot) := by
  have hval : (validate_slot_id slot_id && validate_license_plate license &&
      validate_contact contact) = false := by
    rcases h with h | h | h
    · have hl : validate_license_plate license = false := by
        simp only [validate_license_plate, decide_eq_false_iff_not]
        omega
      simp [hl]
    · have hl : validate_license_plate license = false := by
        simp only [validate_license_plate, decide_eq_false_iff_not]
        omega
      simp [hl]
    · have hc : validate_contact contact = false := by
        by_cases hlen : MIN_CONTACT_LEN ≤ strlen contact ∧ strlen contact < MAX_CONTACT_LEN
        · have hdig : ¬ ∀ c ∈ contact.data, '0' ≤ c ∧ c ≤ '9' := by tauto
          simp only [validate_contact, Bool.and_eq_false_iff]
          right
          simpa [List.all_eq_true] using hdig
        · simp only [validate_contact, Bool.and_eq_false_iff]
          left
          simpa using hlen
      simp [hc]
  unfold parking_service_allocate_slot
  rw [hval]
  simp

/-- C10 witness: nonempty inputs are rejected: a 4-byte plate with an otherwise
valid call, and a valid plate with a 3-digit contact. -/
theorem allocate_rejects_invalid_params_witness :
    ("abcd" : String) ≠ "" ∧ ("123" : String) ≠ "" ∧
    parking_service_allocate_slot (fun _ => 10) 0 demoLot 2 "Wang" "abcd" "12345678"
      RESIDENT_TYPE = (PARKING_SERVICE_INVALID_PARAM, demoLot) ∧
    parking_service_allocate_slot (fun _ => 10) 0 demoLot 2 "Wang" "PLATE2" "123"
      RESIDENT_TYPE = (PARKING_SERVICE_INVALID_PARAM, demoLot) := by
  refine ⟨by decide, by decide, ?_, ?_⟩
  · exact allocate_rejects_invalid_params (fun _ => 10) 0 demoLot 2 "Wang" "abcd"
      "12345678" RESIDENT_TYPE (by left; decide)
  · exact allocate_rejects_invalid_params (fun _ => 10) 0 demoLot 2 "Wang" "PLATE2"
      "123" RESIDENT_TYPE (by right; right; decide)

/-! ## Invariant preservation lemmas for the four lifecycle mutators -/

theorem inv_add (lot : ParkingLot) (slot_id : Int) (location : String)
    (h1 : ∀ s ∈ lot.slots, s.status = FREE_STATUS ∨ s.status = OCCUPIED_STATUS)
    (h2 : lot.occupied_slots = (countOccupied lot.slots : Int)) :
    (∀ s ∈ (add_parking_slot lot (create_parking_slot slot_id location)).2.slots,
      s.status = FREE_STATUS ∨ s.status = OCCUPIED_STATUS) ∧
    (add_parking_slot lot (create_parking_slot slot_id location)).2.occupied_slots =
      (countOccupied (add_parking_slot lot (create_parking_slot slot_id location)).2.slots :
        Int) := by
  unfold add_parking_slot
  split
  · exact ⟨h1, h2⟩
  · constructor
    · intro s hs
      rcases List.mem_cons.mp hs with rfl | hs
      · exact Or.inl rfl
      · exact h1 s hs
    · simpa [countOccupied_cons, create_parking_slot, FREE_STATUS, OCCUPIED_STATUS] using h2

theorem inv_alloc (hourOf : Int → Int) (now : Int) (lot : ParkingLot) (slot_id : Int)
    (owner license contact : String) (ty : Int)
    (h1 : ∀ s ∈ lot.slots, s.status = FREE_STATUS ∨ s.status = OCCUPIED_STATUS)
    (h2 : lot.occupied_slots = (countOccupied lot.slots : Int)) :
    (∀ s ∈ (allocate_slot hourOf now lot slot_id owner license contact ty).2.slots,
      s.status = FREE_STATUS ∨ s.status = OCCUPIED_STATUS) ∧
    (allocate_slot hourOf now lot slot_id owner license contact ty).2.occupied_slots =
      (countOccupied (allocate_slot hourOf now lot slot_id owner license contact ty).2.slots :
        Int) := by
  unfold allocate_slot
  cases hfind : find_slot_by_id lot slot_id with
  | none => exact ⟨h1, h2⟩
  | some x =>
    dsimp only
    split_ifs with hocc hlic htime
    · exact ⟨h1, h2⟩
    · exact ⟨h1, h2⟩
    · exact ⟨h1, h2⟩
    · have hxocc : x.status ≠ OCCUPIED_STATUS := by simpa using hocc
      unfold find_slot_by_id at hfind
      obtain ⟨l1, l2, heq, hl1, hpx⟩ := find?_decomp _ _ _ hfind
      rw [heq, updateFirst_append_cons _ _ _ _ _ hl1 hpx]
      constructor
      · intro s hs
        rcases List.mem_append.mp hs with hs | hs
        · exact h1 s (heq ▸ List.mem_append_left _ hs)
        · rcases List.mem_cons.mp hs with rfl | hs
          · exact Or.inr rfl
          · exact h1 s (heq ▸ List.mem_append_right _ (List.mem_cons_of_mem _ hs))
      · have hcount : countOccupied lot.slots =
            countOccupied l1 + countOccupied l2 := by
          rw [heq, countOccupied_append, countOccupied_cons]
          simp [hxocc]
        rw [countOccupied_append, countOccupied_cons]
        simp only [OCCUPIED_STATUS, if_pos rfl]
        rw [h2, hcount]
        push_cast
        ring

theorem inv_dealloc (now : Int) (lot : ParkingLot) (slot_id : Int)
    (h1 : ∀ s ∈ lot.slots, s.status = FREE_STATUS ∨ s.status = OCCUPIED_STATUS)
    (h2 : lot.occupied_slots = (countOccupied lot.slots : Int)) :
    (∀ s ∈ (deallocate_slot now lot slot_id).2.slots,
      s.status = FREE_STATUS ∨ s.status = OCCUPIED_STATUS) ∧
    (deallocate_slot now lot slot_id).2.occupied_slots =
      (countOccupied (deallocate_slot now lot slot_id).2.slots : Int) := by
  unfold deallocate_slot
  cases hfind : find_slot_by_id lot slot_id with
  | none => exact ⟨h1, h2⟩
  | some x =>
    dsimp only
    split_ifs with hfree
    · exact ⟨h1, h2⟩
    · have hxfree : x.status ≠ FREE_STATUS := by simpa using hfree
      have hxmem : x ∈ lot.slots := by
        unfold find_slot_by_id at hfind
        exact List.mem_of_find?_eq_some hfind
      have hxocc : x.status = OCCUPIED_STATUS := (h1 x hxmem).resolve_left hxfree
      unfold find_slot_by_id at hfind
      obtain ⟨l1, l2, heq, hl1, hpx⟩ := find?_decomp _ _ _ hfind
      rw [heq, updateFirst_append_cons _ _ _ _ _ hl1 hpx]
      constructor
      · intro s hs
        rcases List.mem_append.mp hs with hs | hs
        · exact h1 s (heq ▸ List.mem_append_left _ hs)
        · rcases List.mem_cons.mp hs with rfl | hs
          · exact Or.inl rfl
          · exact h1 s (heq ▸ List.mem_append_right _ (List.mem_cons_of_mem _ hs))
      · have hcount : countOccupied lot.slots =
            countOccupied l1 + (1 + countOccupied l2) := by
          rw [heq, countOccupied_append, countOccupied_cons]
          simp [hxocc]
        rw [countOccupied_append, countOccupied_cons]
        simp only [FREE_STATUS, OCCUPIED_STATUS]
        norm_num
        rw [h2, hcount]
        push_cast
        ring

theorem inv_del (lot : ParkingLot) (slot_id : Int)
    (h1 : ∀ s ∈ lot.slots, s.status = FREE_STATUS ∨ s.status = OCCUPIED_STATUS)
    (h2 : lot.occupied_slots = (countOccupied lot.slots : Int)) :
    (∀ s ∈ (delete_slot lot slot_id).2.slots,
      s.status = FREE_STATUS ∨ s.status = OCCUPIED_STATUS) ∧
    (delete_slot lot slot_id).2.occupied_slots =
      (countOccupied (delete_slot lot slot_id).2.slots : Int) := by
  unfold delete_slot
  dsimp only
  by_cases hc : (delete_from_list slot_id lot.slots).1 = 0
  · obtain ⟨l1, x, l2, heq, hres, hxid, hxocc⟩ := delete_from_list_zero slot_id lot.slots hc
    simp only [hc]
    norm_num
    rw [hres]
    constructor
    · intro s hs
      rcases List.mem_append.mp hs with hs | hs
      · exact h1 s (heq ▸ List.mem_append_left _ hs)
      · exact h1 s (heq ▸ List.mem_append_right _ (List.mem_cons_of_mem _ hs))
    · have hcount : countOccupied lot.slots = countOccupied (l1 ++ l2) := by
        rw [heq, countOccupied_append, countOccupied_cons, countOccupied_append]
        simp [hxocc]
      rw [h2, hcount]
  · have hcb : ((delete_from_list slot_id lot.slots).1 == 0) = false := by
      simpa using hc
    rw [hcb]
    simp only [Bool.false_eq_true, if_false]
    rw [delete_from_list_code_ne_zero slot_id lot.slots hc]
    exact ⟨h1, h2⟩

/-- C1: in every lot reachable from an empty lot by any sequence of
`add_parking_slot` (of freshly created slots), `allocate_slot`,
`deallocate_slot` and `delete_slot` calls, every slot status is `FREE_STATUS`
or `OCCUPIED_STATUS`, and `occupied_slots` equals the number of slots whose
status is `OCCUPIED_STATUS`. -/
theorem reachable_status_and_count (lot : ParkingLot) (h : Reachable lot) :
    (∀ s ∈ lot.slots, s.status = FREE_STATUS ∨ s.status = OCCUPIED_STATUS) ∧
    lot.occupied_slots = (countOccupied lot.slots : Int) := by
  induction h with
  | init total =>
    exact ⟨by simp [init_parking_lot], by simp [init_parking_lot, countOccupied]⟩
  | add lot slot_id location _ ih => exact inv_add lot slot_id location ih.1 ih.2
  | alloc lot hourOf now slot_id owner license contact ty _ ih =>
    exact inv_alloc hourOf now lot slot_id owner license contact ty ih.1 ih.2
  | dealloc lot now slot_id _ ih => exact inv_dealloc now lot slot_id ih.1 ih.2
  | del lot slot_id _ ih => exact inv_del lot slot_id ih.1 ih.2

/-- C1 witness: the invariant holds after the concrete sequence init, add slot
1, allocate slot 1. -/
theorem reachable_status_and_count_witness :
    (∀ s ∈ (allocate_slot (fun _ => 10) 50 (add_parking_slot (init_parking_lot 3)
        (create_parking_slot 1 "A")).2 1 "owner" "PLATE1" "123" VISITOR_TYPE).2.slots,
      s.status = FREE_STATUS ∨ s.status = OCCUPIED_STATUS) ∧
    (allocate_slot (fun _ => 10) 50 (add_parking_slot (init_parking_lot 3)
        (create_parking_slot 1 "A")).2 1 "owner" "PLATE1" "123" VISITOR_TYPE).2.occupied_slots =
      (countOccupied (allocate_slot (fun _ => 10) 50 (add_parking_slot (init_parking_lot 3)
        (create_parking_slot 1 "A")).2 1 "owner" "PLATE1" "123" VISITOR_TYPE).2.slots : Int) :=
  reachable_status_and_count _
    (Reachable.alloc _ (fun _ => 10) 50 1 "owner" "PLATE1" "123" VISITOR_TYPE
      (Reachable.add _ 1 "A" (Reachable.init 3)))

/-! ## Evaluation lemmas for deallocation -/

theorem deallocate_slot_success (now : Int) (lot : ParkingLot) (slot_id : Int)
    (slot : ParkingSlot) (hfind : find_slot_by_id lot slot_id = some slot)
    (hnfree : slot.status ≠ FREE_STATUS) :
    ∃ l1 l2, lot.slots = l1 ++ slot :: l2 ∧
      (∀ y ∈ l1, (y.slot_id == slot_id) = false) ∧ (slot.slot_id == slot_id) = true ∧
      deallocate_slot now lot slot_id =
        (0, { lot with
              slots := l1 ++ { slot with
                exit_time := now
                owner_name := ""
                license_plate := ""
                contact := ""
                status := FREE_STATUS } :: l2
              occupied_slots := lot.occupied_slots - 1 }) := by
  have hfind' := hfind
  unfold find_slot_by_id at hfind'
  obtain ⟨l1, l2, heq, hl1, hpx⟩ := find?_decomp _ _ _ hfind'
  refine ⟨l1, l2, heq, hl1, hpx, ?_⟩
  unfold deallocate_slot
  rw [hfind]
  dsimp only
  rw [if_neg (by simpa using hnfree)]
  rw [heq, updateFirst_append_cons _ _ _ _ _ hl1 hpx]

theorem service_dealloc_resident_nofee (localtime : Int → Tm) (now : Int)
    (lot : ParkingLot) (slot_id : Int) (slot : ParkingSlot)
    (hid : validate_slot_id slot_id = true)
    (hfind : find_slot_by_id lot slot_id = some slot)
    (hocc : slot.status = OCCUPIED_STATUS) (hty : slot.type = RESIDENT_TYPE)
    (hnofee : slot.resident_due_date ≤ 0 ∨ now ≤ slot.resident_due_date) :
    (parking_service_deallocate_slot localtime now lot slot_id).1 =
      PARKING_SERVICE_SUCCESS ∧
    (parking_service_deallocate_slot localtime now lot slot_id).2.1 = none ∧
    ∃ slot', find_slot_by_id (parking_service_deallocate_slot localtime now lot slot_id).2.2
        slot_id = some slot' ∧
      slot'.resident_due_date = slot.resident_due_date ∧ slot'.status = FREE_STATUS := by
  have hnfree : slot.status ≠ FREE_STATUS := by rw [hocc]; decide
  obtain ⟨l1, l2, heq, hl1, hpx, hdea⟩ := deallocate_slot_success now lot slot_id slot hfind hnfree
  have hfreeb : (slot.status == FREE_STATUS) = false := by
    rw [hocc]; decide
  have htyb : (slot.type == RESIDENT_TYPE) = true := by
    rw [hty]; decide
  have hcondb : (decide (slot.resident_due_date > 0) &&
      decide (now > slot.resident_due_date)) = false := by
    rcases hnofee with h | h
    · have hh : ¬ slot.resident_due_date > 0 := by omega
      simp [hh]
    · have hh : ¬ now > slot.resident_due_date := by omega
      simp [hh]
  unfold parking_service_deallocate_slot
  rw [hfind]
  dsimp only
  simp only [hid, Bool.not_true, Bool.false_eq_true, if_false, hfreeb, htyb, hcondb,
    if_true, lt_self_iff_false, hdea]
  simp only [bne_self_eq_false, Bool.false_eq_true, if_false, lt_self_iff_false]
  refine ⟨trivial, trivial, ?_⟩
  refine ⟨{ slot with
      exit_time := now
      owner_name := ""
      license_plate := ""
      contact := ""
      status := FREE_STATUS }, ?_, rfl, rfl⟩
  unfold find_slot_by_id
  exact find?_append_cons _ _ _ _ hl1 hpx

theorem service_dealloc_resident_fee (localtime : Int → Tm) (now : Int)
    (lot : ParkingLot) (slot_id : Int) (slot : ParkingSlot)
    (hid : validate_slot_id slot_id = true)
    (hfind : find_slot_by_id lot slot_id = some slot)
    (hocc : slot.status = OCCUPIED_STATUS) (hty : slot.type = RESIDENT_TYPE)
    (hdue : 0 < slot.resident_due_date) (hnow : slot.resident_due_date < now) :
    (parking_service_deallocate_slot localtime now lot slot_id).1 =
      PARKING_SERVICE_SUCCESS ∧
    (parking_service_deallocate_slot localtime now lot slot_id).2.1 =
      some ((⌈((now - slot.resident_due_date : Int) : ℚ) / (SECONDS_PER_MONTH : ℚ)⌉ : ℚ) *
        RESIDENT_MONTHLY_FEE) ∧
    ∃ slot', find_slot_by_id (parking_service_deallocate_slot localtime now lot slot_id).2.2
        slot_id = some slot' ∧
      slot'.resident_due_date = slot.resident_due_date +
        ⌈((now - slot.resident_due_date : Int) : ℚ) / (SECONDS_PER_MONTH : ℚ)⌉ *
          SECONDS_PER_MONTH ∧
      slot'.status = FREE_STATUS := by
  have hnfree : slot.status ≠ FREE_STATUS := by rw [hocc]; decide
  have hmpos : (1 : ℤ) ≤ ⌈((now - slot.resident_due_date : Int) : ℚ) /
      (SECONDS_PER_MONTH : ℚ)⌉ := by
    apply Int.ceil_pos.mpr
    apply div_pos
    · exact_mod_cast sub_pos.mpr hnow
    · have : (0 : ℤ) < SECONDS_PER_MONTH := by decide
      exact_mod_cast this
  have hfee : (0 : ℚ) < (⌈((now - slot.resident_due_date : Int) : ℚ) /
      (SECONDS_PER_MONTH : ℚ)⌉ : ℚ) * RESIDENT_MONTHLY_FEE := by
    have h1 : (1 : ℚ) ≤ (⌈((now - slot.resident_due_date : Int) : ℚ) /
        (SECONDS_PER_MONTH : ℚ)⌉ : ℚ) := by exact_mod_cast hmpos
    simp only [RESIDENT_MONTHLY_FEE]
    nlinarith
  have hfreeb : (slot.status == FREE_STATUS) = false := by
    rw [hocc]; decide
  have htyb : (slot.type == RESIDENT_TYPE) = true := by
    rw [hty]; decide
  have hcondb : (decide (slot.resident_due_date > 0) &&
      decide (now > slot.resident_due_date)) = true := by
    have h1 : slot.resident_due_date > 0 := hdue
    have h2 : now > slot.resident_due_date := hnow
    simp [h1, h2]
  set m : ℤ := ⌈((now - slot.resident_due_date : Int) : ℚ) / (SECONDS_PER_MONTH : ℚ)⌉ with hm
  unfold parking_service_deallocate_slot
  rw [hfind]
  dsimp only
  simp only [hid, Bool.not_true, Bool.false_eq_true, if_false, hfreeb, htyb, hcondb, if_true,
    ← hm]
  rw [if_pos hfee]
  have hfind1 := hfind
  unfold find_slot_by_id at hfind1
  obtain ⟨l1, l2, heq, hl1, hpx⟩ := find?_decomp _ _ _ hfind1
  rw [heq, updateFirst_append_cons _ _ _ _ _ hl1 hpx]
  set x1 : ParkingSlot := { slot with
    resident_due_date := slot.resident_due_date + m * SECONDS_PER_MONTH } with hx1
  set lot1 : ParkingLot := { lot with slots := l1 ++ x1 :: l2 } with hlot1
  set lotc : ParkingLot := update_revenue_cycle localtime now lot1 with hlotc
  have hslots2 : lotc.slots = l1 ++ x1 :: l2 := by
    rw [hlotc, update_revenue_cycle_slots, hlot1]
  have hfind2 : find_slot_by_id { lotc with
      today_revenue := lotc.today_revenue + (m : ℚ) * RESIDENT_MONTHLY_FEE
      month_revenue := lotc.month_revenue + (m : ℚ) * RESIDENT_MONTHLY_FEE } slot_id =
      some x1 := by
    unfold find_slot_by_id
    dsimp only
    rw [hslots2]
    exact find?_append_cons _ _ _ _ hl1 hpx
  obtain ⟨m1, m2, heq2, hm1, hmx, hdea2⟩ := deallocate_slot_success now _ slot_id x1 hfind2
    (by rw [hx1]; simpa using hnfree)
  rw [hdea2]
  simp only [bne_self_eq_false, Bool.false_eq_true, if_false]
  rw [if_pos hfee]
  refine ⟨rfl, rfl, ?_⟩
  refine ⟨{ slot with
      exit_time := now
      owner_name := ""
      license_plate := ""
      contact := ""
      resident_due_date := slot.resident_due_date + m * SECONDS_PER_MONTH
      status := FREE_STATUS }, ?_, rfl, rfl⟩
  unfold find_slot_by_id
  dsimp only
  exact find?_append_cons _ _ _ _ hm1 hmx

/-- C4 counterexample: a Resident-occupied slot with the negative (hence
nonzero) due date `-1`, deallocated at `now = 1 > -1`, is charged no fee and
returns no fee payload, while the claim prescribes a fee of
`ceil(2 / SECONDS_PER_MONTH) * 200 = 200` for every nonzero due date before
`now`. -/
theorem resident_overdue_negative_due_counterexample :
    ((-1 : Int) ≠ 0 ∧ (-1 : Int) < 1) ∧
    (parking_service_deallocate_slot (fun _ => Tm.mk 0 0 0) 1 negativeDueLot 1).1 =
      PARKING_SERVICE_SUCCESS ∧
    (parking_service_deallocate_slot (fun _ => Tm.mk 0 0 0) 1 negativeDueLot 1).2.1 =
      none ∧
    (parking_service_deallocate_slot (fun _ => Tm.mk 0 0 0) 1 negativeDueLot 1).2.1 ≠
      some ((⌈((1 - (-1 : Int) : Int) : ℚ) / (SECONDS_PER_MONTH : ℚ)⌉ : ℚ) *
        RESIDENT_MONTHLY_FEE) := by
  have h : (parking_service_deallocate_slot (fun _ => Tm.mk 0 0 0) 1 negativeDueLot 1).2.1 =
      none := by decide
  refine ⟨by decide, by decide, h, ?_⟩
  rw [h]
  simp

/-- C4 (amended: the code treats every nonpositive `resident_due_date` as
unset, not only zero): deallocating a Resident-occupied slot at time `now`
charges no fee and keeps the due date when `resident_due_date ≤ 0` or
`now ≤ resident_due_date`; otherwise it charges
`ceil((now - due) / SECONDS_PER_MONTH) * 200` and advances the due date by
exactly that many 30-day months, to at least `now`. -/
theorem resident_overdue_fee_spec (localtime : Int → Tm) (now : Int) (lot : ParkingLot)
    (slot_id : Int) (slot : ParkingSlot)
    (hid : validate_slot_id slot_id = true)
    (hfind : find_slot_by_id lot slot_id = some slot)
    (hocc : slot.status = OCCUPIED_STATUS) (hty : slot.type = RESIDENT_TYPE) :
    (slot.resident_due_date ≤ 0 ∨ now ≤ slot.resident_due_date →
      (parking_service_deallocate_slot localtime now lot slot_id).1 =
        PARKING_SERVICE_SUCCESS ∧
      (parking_service_deallocate_slot localtime now lot slot_id).2.1 = none ∧
      ∃ slot', find_slot_by_id
          (parking_service_deallocate_slot localtime now lot slot_id).2.2 slot_id =
            some slot' ∧
        slot'.resident_due_date = slot.resident_due_date) ∧
    (0 < slot.resident_due_date → slot.resident_due_date < now →
      (parking_service_deallocate_slot localtime now lot slot_id).1 =
        PARKING_SERVICE_SUCCESS ∧
      (parking_service_deallocate_slot localtime now lot slot_id).2.1 =
        some ((⌈((now - slot.resident_due_date : Int) : ℚ) / (SECONDS_PER_MONTH : ℚ)⌉ : ℚ) *
          RESIDENT_MONTHLY_FEE) ∧
      ∃ slot', find_slot_by_id
          (parking_service_deallocate_slot localtime now lot slot_id).2.2 slot_id =
            some slot' ∧
        slot'.resident_due_date = slot.resident_due_date +
          ⌈((now - slot.resident_due_date : Int) : ℚ) / (SECONDS_PER_MONTH : ℚ)⌉ *
            SECONDS_PER_MONTH ∧
        now ≤ slot'.resident_due_date) := by
  constructor
  · intro h
    obtain ⟨h1, h2, slot', hf, hdue, _⟩ :=
      service_dealloc_resident_nofee localtime now lot slot_id slot hid hfind hocc hty h
    exact ⟨h1, h2, slot', hf, hdue⟩
  · intro h1 h2
    obtain ⟨ha, hb, slot', hf, hdue, _⟩ :=
      service_dealloc_resident_fee localtime now lot slot_id slot hid hfind hocc hty h1 h2
    refine ⟨ha, hb, slot', hf, hdue, ?_⟩
    rw [hdue]
    set m : ℤ := ⌈((now - slot.resident_due_date : Int) : ℚ) / (SECONDS_PER_MONTH : ℚ)⌉
      with hm
    have hspm : (0 : ℚ) < (SECONDS_PER_MONTH : ℚ) := by
      have h0 : (0 : ℤ) < SECONDS_PER_MONTH := by decide
      exact_mod_cast h0
    have h3 := Int.le_ceil (((now - slot.resident_due_date : Int) : ℚ) /
      (SECONDS_PER_MONTH : ℚ))
    rw [div_le_iff₀ hspm] at h3
    rw [← hm] at h3
    have h4 : (now - slot.resident_due_date : Int) ≤ m * SECONDS_PER_MONTH := by
      exact_mod_cast h3
    omega

/-- C4 witness: on the demo lot, a due date exactly two 30-day months before
`now` yields a fee payload of `2 * 200` and moves the due date forward by
exactly two such months, onto `now`. -/
theorem resident_overdue_fee_spec_witness :
    (parking_service_deallocate_slot (fun _ => Tm.mk 0 0 0) (100 + 2 * SECONDS_PER_MONTH)
        demoLot 1).2.1 = some (2 * RESIDENT_MONTHLY_FEE) ∧
    ∃ slot', find_slot_by_id (parking_service_deallocate_slot (fun _ => Tm.mk 0 0 0)
        (100 + 2 * SECONDS_PER_MONTH) demoLot 1).2.2 1 = some slot' ∧
      slot'.resident_due_date = 100 + 2 * SECONDS_PER_MONTH := by
  obtain ⟨ha, hb, slot', hf, hdue, hge⟩ :=
    (resident_overdue_fee_spec (fun _ => Tm.mk 0 0 0) (100 + 2 * SECONDS_PER_MONTH)
      demoLot 1 demoOccupiedSlot (by decide) (by decide) (by decide) (by decide)).2
      (by decide) (by decide)
  have hceil : (⌈((100 + 2 * SECONDS_PER_MONTH - demoOccupiedSlot.resident_due_date :
      Int) : ℚ) / (SECONDS_PER_MONTH : ℚ)⌉ : ℤ) = 2 := by
    norm_num [demoOccupiedSlot, SECONDS_PER_MONTH]
  refine ⟨?_, slot', hf, ?_⟩
  · rw [hb, hceil]
    norm_num
  · rw [hdue, hceil]
    simp [demoOccupiedSlot, SECONDS_PER_MONTH]

/-- C9: `resident_due_date` persists across allocation cycles: `allocate_slot`
never changes any slot id or due date; the data-layer `deallocate_slot` never
changes them either; and the service-layer deallocation of a Resident-occupied
slot keeps the due date unchanged except for the whole-month advance applied
exactly when an overdue fee is charged. -/
theorem resident_due_date_persists (hourOf : Int → Int) (localtime : Int → Tm)
    (now : Int) (lot : ParkingLot) (slot_id : Int)
    (owner license contact : String) (ty : Int) :
    ((allocate_slot hourOf now lot slot_id owner license contact ty).2.slots.map
        (fun s => (s.slot_id, s.resident_due_date)) =
      lot.slots.map (fun s => (s.slot_id, s.resident_due_date))) ∧
    ((deallocate_slot now lot slot_id).2.slots.map
        (fun s => (s.slot_id, s.resident_due_date)) =
      lot.slots.map (fun s => (s.slot_id, s.resident_due_date))) ∧
    (∀ slot, validate_slot_id slot_id = true →
      find_slot_by_id lot slot_id = some slot → slot.status = OCCUPIED_STATUS →
      slot.type = RESIDENT_TYPE →
      ∃ slot', find_slot_by_id
          (parking_service_deallocate_slot localtime now lot slot_id).2.2 slot_id =
            some slot' ∧
        (0 < slot.resident_due_date ∧ slot.resident_due_date < now →
          slot'.resident_due_date = slot.resident_due_date +
            ⌈((now - slot.resident_due_date : Int) : ℚ) / (SECONDS_PER_MONTH : ℚ)⌉ *
              SECONDS_PER_MONTH) ∧
        (¬(0 < slot.resident_due_date ∧ slot.resident_due_date < now) →
          slot'.resident_due_date = slot.resident_due_date)) := by
  refine ⟨?_, ?_, ?_⟩
  · unfold allocate_slot
    cases hfind : find_slot_by_id lot slot_id with
    | none => rfl
    | some x =>
      dsimp only
      split_ifs with h1 h2 h3
      · rfl
      · rfl
      · rfl
      · exact updateFirst_map _ _ _ _ (fun s => rfl)
  · unfold deallocate_slot
    cases hfind : find_slot_by_id lot slot_id with
    | none => rfl
    | some x =>
      dsimp only
      split_ifs with h1
      · rfl
      · exact updateFirst_map _ _ _ _ (fun s => rfl)
  · intro slot hid hfind hocc hty
    by_cases hc : 0 < slot.resident_due_date ∧ slot.resident_due_date < now
    · obtain ⟨_, _, slot', hf, hdue, _⟩ :=
        service_dealloc_resident_fee localtime now lot slot_id slot hid hfind hocc hty
          hc.1 hc.2
      exact ⟨slot', hf, fun _ => hdue, fun h => absurd hc h⟩
    · have hnofee : slot.resident_due_date ≤ 0 ∨ now ≤ slot.resident_due_date := by
        omega
      obtain ⟨_, _, slot', hf, hdue, _⟩ :=
        service_dealloc_resident_nofee localtime now lot slot_id slot hid hfind hocc hty
          hnofee
      exact ⟨slot', hf, fun h => absurd h hc, fun _ => hdue⟩

/-- C9 witness: allocating over the demo lot changes no due date, and a
service deallocation of the non-overdue Resident slot 1 at `now = 50` keeps
its due date `100`. -/
theorem resident_due_date_persists_witness :
    ((allocate_slot (fun _ => 10) 50 demoLot 1 "Li" "PLATE9" "55512345"
        VISITOR_TYPE).2.slots.map (fun s => (s.slot_id, s.resident_due_date)) =
      demoLot.slots.map (fun s => (s.slot_id, s.resident_due_date))) ∧
    ∃ slot', find_slot_by_id (parking_service_deallocate_slot (fun _ => Tm.mk 0 0 0) 50
        demoLot 1).2.2 1 = some slot' ∧ slot'.resident_due_date = 100 := by
  have h := resident_due_date_persists (fun _ => 10) (fun _ => Tm.mk 0 0 0) 50 demoLot 1
    "Li" "PLATE9" "55512345" VISITOR_TYPE
  obtain ⟨slot', hf, _, h2⟩ := h.2.2 demoOccupiedSlot (by decide) (by decide) (by decide)
    (by decide)
  exact ⟨h.1, slot', hf, h2 (by decide)⟩

/-! ## Decimal printing and parsing round trip -/

theorem digitChar_isDigit (d : Nat) (h : d < 10) : (Nat.digitChar d).isDigit = true := by
  interval_cases d <;> decide

theorem digitChar_toNat (d : Nat) (h : d < 10) : (Nat.digitChar d).toNat - 48 = d := by
  interval_cases d <;> decide

theorem isDigit_not_space (c : Char) (h : c.isDigit = true) : isSpaceC c = false := by
  by_contra hc
  have hc' : isSpaceC c = true := by
    revert hc
    cases isSpaceC c <;> simp
  simp only [isSpaceC, Bool.or_eq_true, beq_iff_eq] at hc'
  rcases hc' with ((((h1 | h1) | h1) | h1) | h1) | h1 <;> subst h1 <;>
    exact absurd h (by decide)

theorem isDigit_ne (c : Char) (h : c.isDigit = true) :
    c ≠ '-' ∧ c ≠ '+' ∧ c ≠ '|' ∧ c ≠ '\n' ∧ c ≠ '\r' := by
  refine ⟨?_, ?_, ?_, ?_, ?_⟩ <;> (rintro rfl; revert h; decide)

theorem atoiCore_eq_foldl (cs : List Char) (acc : Nat) (h : ∀ c ∈ cs, c.isDigit = true) :
    atoiCore cs acc = cs.foldl (fun a c => 10 * a + (c.toNat - 48)) acc := by
  induction cs generalizing acc with
  | nil => rfl
  | cons c rest ih =>
    have hc : c.isDigit = true := h c (by simp)
    simp [atoiCore, hc, ih _ (fun x hx => h x (by simp [hx]))]

theorem natDigits_spec (n : Nat) :
    natDigits n ≠ [] ∧ (∀ c ∈ natDigits n, c.isDigit = true) ∧
    (natDigits n).foldl (fun a c => 10 * a + (c.toNat - 48)) 0 = n := by
  induction n using Nat.strong_induction_on with
  | _ n ih =>
    by_cases h : n < 10
    · rw [natDigits, dif_pos h]
      refine ⟨by simp, ?_, ?_⟩
      · intro c hc
        simp only [List.mem_singleton] at hc
        subst hc
        exact digitChar_isDigit _ (Nat.mod_lt _ (by omega))
      · simp only [List.foldl_cons, List.foldl_nil]
        rw [digitChar_toNat _ (Nat.mod_lt _ (by omega))]
        omega
    · rw [natDigits, dif_neg h]
      obtain ⟨ihne, ihdig, ihval⟩ := ih (n / 10) (Nat.div_lt_self (by omega) (by omega))
      refine ⟨by simp, ?_, ?_⟩
      · intro c hc
        rcases List.mem_append.mp hc with hc | hc
        · exact ihdig c hc
        · simp only [List.mem_singleton] at hc
          subst hc
          exact digitChar_isDigit _ (Nat.mod_lt _ (by omega))
      · rw [List.foldl_append, ihval]
        simp only [List.foldl_cons, List.foldl_nil]
        rw [digitChar_toNat _ (Nat.mod_lt _ (by omega))]
        omega

theorem toDigitsCore_eq (fuel : Nat) : ∀ (n : Nat) (ds : List Char), n < fuel →
    Nat.toDigitsCore 10 fuel n ds = natDigits n ++ ds := by
  induction fuel with
  | zero => omega
  | succ fuel ih =>
    intro n ds h
    by_cases h10 : n / 10 = 0
    · have hn : n < 10 := by omega
      simp only [Nat.toDigitsCore, h10, if_true]
      rw [natDigits, dif_pos hn]
      rfl
    · have hn : ¬ n < 10 := by omega
      simp only [Nat.toDigitsCore, h10, if_false]
      rw [ih (n / 10) _ (lt_of_lt_of_le (Nat.div_lt_self (by omega) (by omega))
        (by omega))]
      conv_rhs => rw [natDigits]
      rw [dif_neg hn]
      simp

theorem natRepr_data (n : Nat) : (Nat.repr n).data = natDigits n := by
  show (Nat.toDigits 10 n).asString.data = natDigits n
  rw [Nat.toDigits, toDigitsCore_eq (n + 1) n [] (by omega)]
  simp [List.asString]

theorem atoiChars_natDigits (m : Nat) : atoiChars (natDigits m) = (m : Int) := by
  obtain ⟨hne, hdig, hval⟩ := natDigits_spec m
  obtain ⟨c, rest, hcr⟩ : ∃ c rest, natDigits m = c :: rest := by
    cases hh : natDigits m with
    | nil => exact absurd hh hne
    | cons a l => exact ⟨a, l, rfl⟩
  have hc : c.isDigit = true := hdig c (by rw [hcr]; simp)
  obtain ⟨hm, hp, _, _, _⟩ := isDigit_ne c hc
  have hcore : atoiCore (c :: rest) 0 = m := by
    rw [atoiCore_eq_foldl _ _ (by rw [← hcr]; exact hdig), ← hcr]
    exact hval
  unfold atoiChars
  rw [hcr, List.dropWhile_cons_of_neg (by simp [isDigit_not_space c hc])]
  dsimp only
  rw [if_neg hm, if_neg hp, hcore]

theorem scanIntStrict_natDigits (m : Nat) : scanIntStrict (natDigits m) = some (m : Int) := by
  obtain ⟨hne, hdig, hval⟩ := natDigits_spec m
  obtain ⟨c, rest, hcr⟩ : ∃ c rest, natDigits m = c :: rest := by
    cases hh : natDigits m with
    | nil => exact absurd hh hne
    | cons a l => exact ⟨a, l, rfl⟩
  have hc : c.isDigit = true := hdig c (by rw [hcr]; simp)
  obtain ⟨hm, hp, _, _, _⟩ := isDigit_ne c hc
  have hcore : atoiCore (c :: rest) 0 = m := by
    rw [atoiCore_eq_foldl _ _ (by rw [← hcr]; exact hdig), ← hcr]
    exact hval
  unfold scanIntStrict
  rw [hcr, List.dropWhile_cons_of_neg (by simp [isDigit_not_space c hc])]
  dsimp only
  rw [if_neg hm, if_neg hp, if_pos hc, hcore]

theorem toString_intOfNat_data (m : Nat) : (toString (Int.ofNat m)).data = natDigits m := by
  show (Nat.repr m).data = natDigits m
  exact natRepr_data m

theorem toString_negSucc_data (m : Nat) :
    (toString (Int.negSucc m)).data = '-' :: natDigits (m + 1) := by
  show (("-" : String) ++ Nat.repr (m + 1)).data = '-' :: natDigits (m + 1)
  rw [String.data_append, natRepr_data]
  rfl

theorem atoiChars_toString_int (n : Int) : atoiChars (toString n).data = n := by
  cases n with
  | ofNat m =>
    rw [toString_intOfNat_data]
    exact atoiChars_natDigits m
  | negSucc m =>
    rw [toString_negSucc_data]
    obtain ⟨hne, hdig, hval⟩ := natDigits_spec (m + 1)
    have hcore : atoiCore (natDigits (m + 1)) 0 = m + 1 := by
      rw [atoiCore_eq_foldl _ _ hdig]
      exact hval
    unfold atoiChars
    rw [List.dropWhile_cons_of_neg (by decide)]
    dsimp only
    rw [if_pos rfl, hcore]
    simp [Int.negSucc_eq]

theorem toString_int_chars (n : Int) (c : Char) (hc : c ∈ (toString n).data) :
    c ≠ '|' ∧ c ≠ '\n' ∧ c ≠ '\r' := by
  cases n with
  | ofNat m =>
    rw [toString_intOfNat_data] at hc
    obtain ⟨_, hdig, _⟩ := natDigits_spec m
    obtain ⟨_, _, h1, h2, h3⟩ := isDigit_ne c (hdig c hc)
    exact ⟨h1, h2, h3⟩
  | negSucc m =>
    rw [toString_negSucc_data] at hc
    rcases List.mem_cons.mp hc with rfl | hc
    · refine ⟨by decide, by decide, by decide⟩
    · obtain ⟨_, hdig, _⟩ := natDigits_spec (m + 1)
      obtain ⟨_, _, h1, h2, h3⟩ := isDigit_ne c (hdig c hc)
      exact ⟨h1, h2, h3⟩

theorem scanLotTotal_saved (total : Int) (h : 0 < total) :
    scanLotTotal ("LOT|" ++ toString total) = some total := by
  obtain ⟨m, rfl⟩ : ∃ m : Nat, total = Int.ofNat m := by
    cases total with
    | ofNat m => exact ⟨m, rfl⟩
    | negSucc m => exact absurd h (by have := Int.negSucc_lt_zero m; omega)
  have hdata : (("LOT|" : String) ++ toString (Int.ofNat m)).data =
      'L' :: 'O' :: 'T' :: '|' :: (toString (Int.ofNat m)).data := by
    rw [String.data_append]
    rfl
  unfold scanLotTotal
  rw [hdata, toString_intOfNat_data]
  exact scanIntStrict_natDigits m

/-! ## Field splitting and joining -/

theorem truncEol_eq_self (cs : List Char) (h : ∀ c ∈ cs, c ≠ '\n' ∧ c ≠ '\r') :
    truncEol cs = cs := by
  induction cs with
  | nil => rfl
  | cons c rest ih =>
    have hc := h c (by simp)
    unfold truncEol
    rw [List.takeWhile_cons_of_pos (by simp [hc.1, hc.2])]
    have : List.takeWhile (fun c => !(c == '\n' || c == '\r')) rest = truncEol rest := rfl
    rw [this, ih (fun x hx => h x (by simp [hx]))]

theorem splitPipe_no_pipe (f : List Char) (h : ∀ c ∈ f, c ≠ '|') : splitPipe f = [f] := by
  induction f with
  | nil => rfl
  | cons c rest ih =>
    have hc := h c (by simp)
    unfold splitPipe
    rw [if_neg (by simpa using hc)]
    rw [ih (fun x hx => h x (by simp [hx]))]

theorem splitPipe_append (f t : List Char) (h : ∀ c ∈ f, c ≠ '|') :
    splitPipe (f ++ '|' :: t) = f :: splitPipe t := by
  induction f with
  | nil =>
    show splitPipe ('|' :: t) = [] :: splitPipe t
    conv_lhs => unfold splitPipe
    rw [if_pos (by decide)]
  | cons c rest ih =>
    have hc := h c (by simp)
    show splitPipe (c :: (rest ++ '|' :: t)) = (c :: rest) :: splitPipe t
    conv_lhs => unfold splitPipe
    rw [if_neg (by simpa using hc)]
    rw [ih (fun x hx => h x (by simp [hx]))]

theorem splitPipe_pipeJoin (fields : List (List Char)) (hne : fields ≠ [])
    (h : ∀ f ∈ fields, ∀ c ∈ f, c ≠ '|') :
    splitPipe (pipeJoin fields) = fields := by
  induction fields with
  | nil => exact absurd rfl hne
  | cons f fs ih =>
    cases fs with
    | nil =>
      show splitPipe (pipeJoin [f]) = [f]
      rw [show pipeJoin [f] = f from rfl]
      exact splitPipe_no_pipe f (h f (by simp))
    | cons g gs =>
      rw [show pipeJoin (f :: g :: gs) = f ++ '|' :: pipeJoin (g :: gs) from rfl]
      rw [splitPipe_append _ _ (h f (by simp))]
      rw [ih (by simp) (fun x hx c hc => h x (by simp [hx]) c hc)]

theorem mem_pipeJoin (fields : List (List Char)) (c : Char) :
    c ∈ pipeJoin fields → (∃ f ∈ fields, c ∈ f) ∨ c = '|' := by
  induction fields with
  | nil =>
    intro hc
    simp [pipeJoin] at hc
  | cons f fs ih =>
    intro hc
    cases fs with
    | nil =>
      left
      exact ⟨f, by simp, by simpa [pipeJoin] using hc⟩
    | cons g gs =>
      rw [show pipeJoin (f :: g :: gs) = f ++ '|' :: pipeJoin (g :: gs) from rfl] at hc
      rcases List.mem_append.mp hc with hcf | hct
      · exact Or.inl ⟨f, by simp, hcf⟩
      · rcases List.mem_cons.mp hct with rfl | hct
        · exact Or.inr rfl
        · rcases ih hct with ⟨x, hx, hcx⟩ | rfl
          · exact Or.inl ⟨x, by simp [hx], hcx⟩
          · exact Or.inr rfl

/-! ## The saved record line and its reload -/

theorem slotLine_data_occupied (s : ParkingSlot) (hocc : s.status = OCCUPIED_STATUS) :
    (slotLine s).data = 'S' :: 'L' :: 'O' :: 'T' :: '|' ::
      pipeJoin [(toString s.slot_id).data, s.location.data, s.owner_name.data,
        s.license_plate.data, s.contact.data, (toString s.type).data,
        (toString s.entry_time).data, (toString s.exit_time).data,
        (toString s.status).data, (toString s.resident_due_date).data] := by
  have hS : ("SLOT|" : String).data = ['S', 'L', 'O', 'T', '|'] := rfl
  have hP : ("|" : String).data = ['|'] := rfl
  unfold slotLine
  rw [if_pos (by simp [hocc])]
  simp [String.data_append, hS, hP, pipeJoin]

theorem slotLine_data_free (s : ParkingSlot) (hocc : ¬ s.status = OCCUPIED_STATUS) :
    (slotLine s).data = 'S' :: 'L' :: 'O' :: 'T' :: '|' ::
      pipeJoin [(toString s.slot_id).data, s.location.data, [], [], [],
        (toString s.type).data, ['0'], ['0'], (toString s.status).data, ['0']] := by
  have hS : ("SLOT|" : String).data = ['S', 'L', 'O', 'T', '|'] := rfl
  have hP : ("|" : String).data = ['|'] := rfl
  have hQ : ("||||" : String).data = ['|', '|', '|', '|'] := rfl
  have hR : ("|0|0|" : String).data = ['|', '0', '|', '0', '|'] := rfl
  have hZ : ("|0" : String).data = ['|', '0'] := rfl
  unfold slotLine
  rw [if_neg (by simpa using hocc)]
  simp [String.data_append, hS, hP, hQ, hR, hZ, pipeJoin]

theorem loadImage_proj (s : ParkingSlot) :
    (loadImage s).slot_id = s.slot_id ∧ (loadImage s).location = s.location ∧
    (loadImage s).type = s.type ∧ (loadImage s).status = s.status := by
  unfold loadImage
  split
  · exact ⟨rfl, rfl, rfl, rfl⟩
  · exact ⟨rfl, rfl, rfl, rfl⟩

theorem parseSlotFields_slotLine (s : ParkingSlot) (hloc : strOk s.location)
    (hown : strOk s.owner_name) (hpl : strOk s.license_plate) (hct : strOk s.contact) :
    isSlotLine (slotLine s) = true ∧
    parseSlotFields ((slotLine s).data.drop 5) = loadImage s := by
  by_cases hocc : s.status = OCCUPIED_STATUS
  · have hfields : ∀ f ∈ [(toString s.slot_id).data, s.location.data, s.owner_name.data,
        s.license_plate.data, s.contact.data, (toString s.type).data,
        (toString s.entry_time).data, (toString s.exit_time).data,
        (toString s.status).data, (toString s.resident_due_date).data],
        ∀ c ∈ f, c ≠ '|' ∧ c ≠ '\n' ∧ c ≠ '\r' := by
      intro f hf c hc
      simp only [List.mem_cons, List.not_mem_nil, or_false] at hf
      rcases hf with rfl | rfl | rfl | rfl | rfl | rfl | rfl | rfl | rfl | rfl
      · exact toString_int_chars _ c hc
      · exact hloc c hc
      · exact hown c hc
      · exact hpl c hc
      · exact hct c hc
      · exact toString_int_chars _ c hc
      · exact toString_int_chars _ c hc
      · exact toString_int_chars _ c hc
      · exact toString_int_chars _ c hc
      · exact toString_int_chars _ c hc
    constructor
    · unfold isSlotLine
      rw [slotLine_data_occupied s hocc]
      rfl
    · rw [slotLine_data_occupied s hocc]
      show parseSlotFields (pipeJoin _) = loadImage s
      unfold parseSlotFields
      rw [truncEol_eq_self _ (fun c hc => by
        rcases mem_pipeJoin _ c hc with ⟨f, hf, hcf⟩ | rfl
        · exact (hfields f hf c hcf).2
        · exact ⟨by decide, by decide⟩)]
      rw [splitPipe_pipeJoin _ (by simp) (fun f hf c hc => (hfields f hf c hc).1)]
      rw [List.take_of_length_le (by simp)]
      simp only [List.enum, List.enumFrom, List.foldl_cons, List.foldl_nil]
      simp only [parse_and_assign_field]
      rw [loadImage, if_pos (by simp [hocc])]
      obtain ⟨sid, loc, own, pl, ct, ty, et, xt, dd, st⟩ := s
      simp only [atoiChars_toString_int]
  · have hfields : ∀ f ∈ [(toString s.slot_id).data, s.location.data, ([] : List Char),
        ([] : List Char), ([] : List Char), (toString s.type).data, ['0'], ['0'],
        (toString s.status).data, ['0']],
        ∀ c ∈ f, c ≠ '|' ∧ c ≠ '\n' ∧ c ≠ '\r' := by
      intro f hf c hc
      simp only [List.mem_cons, List.not_mem_nil, or_false] at hf
      rcases hf with rfl | rfl | rfl | rfl | rfl | rfl | rfl | rfl | rfl | rfl
      · exact toString_int_chars _ c hc
      · exact hloc c hc
      · simp at hc
      · simp at hc
      · simp at hc
      · exact toString_int_chars _ c hc
      · simp only [List.mem_singleton] at hc
        subst hc
        exact ⟨by decide, by decide, by decide⟩
      · simp only [List.mem_singleton] at hc
        subst hc
        exact ⟨by decide, by decide, by decide⟩
      · exact toString_int_chars _ c hc
      · simp only [List.mem_singleton] at hc
        subst hc
        exact ⟨by decide, by decide, by decide⟩
    constructor
    · unfold isSlotLine
      rw [slotLine_data_free s hocc]
      rfl
    · rw [slotLine_data_free s hocc]
      show parseSlotFields (pipeJoin _) = loadImage s
      unfold parseSlotFields
      rw [truncEol_eq_self _ (fun c hc => by
        rcases mem_pipeJoin _ c hc with ⟨f, hf, hcf⟩ | rfl
        · exact (hfields f hf c hcf).2
        · exact ⟨by decide, by decide⟩)]
      rw [splitPipe_pipeJoin _ (by simp) (fun f hf c hc => (hfields f hf c hc).1)]
      rw [List.take_of_length_le (by simp)]
      simp only [List.enum, List.enumFrom, List.foldl_cons, List.foldl_nil]
      simp only [parse_and_assign_field]
      rw [loadImage, if_neg (by simpa using hocc)]
      obtain ⟨sid, loc, own, pl, ct, ty, et, xt, dd, st⟩ := s
      simp only [atoiChars_toString_int]
      rfl

/-! ## Loading the saved line list -/

theorem loadSlotLines_cons_pos (line : String) (ls : List String) (acc : ParkingLot)
    (h : isSlotLine line = true) :
    loadSlotLines (line :: ls) acc =
      loadSlotLines ls (add_parking_slot acc (parseSlotFields (line.data.drop 5))).2 := by
  conv_lhs => unfold loadSlotLines
  rw [if_pos h]

theorem loadSlotLines_cons_neg (line : String) (ls : List String) (acc : ParkingLot)
    (h : isSlotLine line = false) :
    loadSlotLines (line :: ls) acc = loadSlotLines ls acc := by
  conv_lhs => unfold loadSlotLines
  rw [if_neg (by simp [h])]

theorem loadSlotLines_filter (lines : List String) (acc : ParkingLot) :
    loadSlotLines (lines.filter isSlotLine) acc = loadSlotLines lines acc := by
  induction lines generalizing acc with
  | nil => rfl
  | cons line rest ih =>
    by_cases hl : isSlotLine line = true
    · rw [List.filter_cons_of_pos hl, loadSlotLines_cons_pos _ _ _ hl,
        loadSlotLines_cons_pos _ _ _ hl]
      exact ih _
    · have hl' : isSlotLine line = false := by simpa using hl
      rw [List.filter_cons_of_neg (by simp [hl']), loadSlotLines_cons_neg _ _ _ hl']
      exact ih _

theorem loadSlotLines_saved (slots : List ParkingSlot) (acc : ParkingLot)
    (hstr : ∀ s ∈ slots, strOk s.location ∧ strOk s.owner_name ∧
      strOk s.license_plate ∧ strOk s.contact)
    (hfresh : ∀ s ∈ slots, find_slot_by_id acc s.slot_id = none)
    (hnd : (slots.map (fun s => s.slot_id)).Nodup) :
    loadSlotLines (slots.map slotLine) acc =
      { acc with slots := (slots.map loadImage).reverse ++ acc.slots } := by
  induction slots generalizing acc with
  | nil => rfl
  | cons s rest ih =>
    rw [List.map_cons, List.nodup_cons] at hnd
    obtain ⟨hs1, hs2, hs3, hs4⟩ := hstr s (by simp)
    obtain ⟨hsl, hparse⟩ := parseSlotFields_slotLine s hs1 hs2 hs3 hs4
    rw [List.map_cons, loadSlotLines_cons_pos _ _ _ hsl, hparse]
    have hfind : find_slot_by_id acc (loadImage s).slot_id = none := by
      rw [(loadImage_proj s).1]
      exact hfresh s (by simp)
    have hadd : (add_parking_slot acc (loadImage s)).2 =
        { acc with slots := loadImage s :: acc.slots } := by
      unfold add_parking_slot
      rw [hfind]
      rfl
    rw [hadd]
    rw [ih { acc with slots := loadImage s :: acc.slots }
      (fun x hx => hstr x (by simp [hx]))
      (fun x hx => by
        unfold find_slot_by_id
        dsimp only
        rw [List.find?_cons_of_neg]
        · exact hfresh x (by simp [hx])
        · have hxid : x.slot_id ∈ rest.map (fun s => s.slot_id) :=
            List.mem_map_of_mem _ hx
          have hne : s.slot_id ≠ x.slot_id := fun he => hnd.1 (he ▸ hxid)
          simp [(loadImage_proj s).1, hne])
      hnd.2]
    simp [List.append_assoc]

theorem countOccupied_map_loadImage (l : List ParkingSlot) :
    countOccupied (l.map loadImage) = countOccupied l := by
  induction l with
  | nil => rfl
  | cons s rest ih =>
    rw [List.map_cons, countOccupied_cons, countOccupied_cons,
      (loadImage_proj s).2.2.2, ih]

theorem countOccupied_reverse (l : List ParkingSlot) :
    countOccupied l.reverse = countOccupied l := by
  simp [countOccupied, List.filter_reverse]

theorem find?_of_mem_nodup (L : List ParkingSlot) (x : ParkingSlot) (hx : x ∈ L)
    (hnd : (L.map (fun s => s.slot_id)).Nodup) :
    L.find? (fun s => s.slot_id == x.slot_id) = some x := by
  induction L with
  | nil => simp at hx
  | cons a rest ih =>
    rw [List.map_cons, List.nodup_cons] at hnd
    rcases List.mem_cons.mp hx with rfl | hx
    · rw [List.find?_cons_of_pos _ (by simp)]
    · have hne : a.slot_id ≠ x.slot_id := by
        intro he
        exact hnd.1 (he ▸ List.mem_map_of_mem _ hx)
      rw [List.find?_cons_of_neg _ (by simp [hne])]
      exact ih hx hnd.2

/-- C5: saving a lot whose slot ids are distinct, whose string fields contain
no field separator or line terminator, and whose Free slots carry cleared
occupant strings (as every lot built by the program does), then reloading,
reproduces `total_slots`, recomputes `occupied_slots` as the count of Occupied
slots, and reproduces every slot's owner, license plate, status and
location. -/
theorem save_load_roundtrip (lot : ParkingLot) (htot : 0 < lot.total_slots)
    (hnd : (lot.slots.map (fun s => s.slot_id)).Nodup)
    (hstr : ∀ s ∈ lot.slots, strOk s.location ∧ strOk s.owner_name ∧
      strOk s.license_plate ∧ strOk s.contact)
    (hfree : ∀ s ∈ lot.slots, s.status ≠ OCCUPIED_STATUS →
      s.owner_name = "" ∧ s.license_plate = "") :
    ∃ lot', load_parking_data (save_parking_data lot) = some lot' ∧
      lot'.total_slots = lot.total_slots ∧
      lot'.occupied_slots = (countOccupied lot'.slots : Int) ∧
      countOccupied lot'.slots = countOccupied lot.slots ∧
      ∀ s ∈ lot.slots, ∃ s', find_slot_by_id lot' s.slot_id = some s' ∧
        s'.owner_name = s.owner_name ∧ s'.license_plate = s.license_plate ∧
        s'.status = s.status ∧ s'.location = s.location := by
  unfold save_parking_data load_parking_data
  dsimp only
  rw [scanLotTotal_saved lot.total_slots htot]
  dsimp only
  rw [if_pos htot]
  rw [loadSlotLines_saved lot.slots (init_parking_lot lot.total_slots) hstr
    (fun s hs => rfl) hnd]
  refine ⟨_, rfl, rfl, rfl, ?_, ?_⟩
  · show countOccupied ((lot.slots.map loadImage).reverse ++
      (init_parking_lot lot.total_slots).slots) = countOccupied lot.slots
    rw [show (init_parking_lot lot.total_slots).slots = [] from rfl, List.append_nil,
      countOccupied_reverse, countOccupied_map_loadImage]
  · intro s hs
    refine ⟨loadImage s, ?_, ?_, ?_, (loadImage_proj s).2.2.2, (loadImage_proj s).2.1⟩
    · unfold find_slot_by_id
      show List.find? _ ((lot.slots.map loadImage).reverse ++
        (init_parking_lot lot.total_slots).slots) = _
      rw [show (init_parking_lot lot.total_slots).slots = [] from rfl, List.append_nil]
      have hmem : loadImage s ∈ (lot.slots.map loadImage).reverse := by
        rw [List.mem_reverse]
        exact List.mem_map_of_mem _ hs
      have hmapid : ((lot.slots.map loadImage).map (fun s => s.slot_id)) =
          lot.slots.map (fun s => s.slot_id) := by
        rw [List.map_map]
        exact List.map_congr_left (fun x _ => (loadImage_proj x).1)
      have hnd2 : (((lot.slots.map loadImage).reverse).map
          (fun s => s.slot_id)).Nodup := by
        rw [List.map_reverse, List.nodup_reverse, hmapid]
        exact hnd
      have hf := find?_of_mem_nodup _ (loadImage s) hmem hnd2
      rw [(loadImage_proj s).1] at hf
      exact hf
    · by_cases hocc : s.status = OCCUPIED_STATUS
      · rw [loadImage, if_pos (by simp [hocc])]
      · rw [loadImage, if_neg (by simpa using hocc), (hfree s hs hocc).1]
    · by_cases hocc : s.status = OCCUPIED_STATUS
      · rw [loadImage, if_pos (by simp [hocc])]
      · rw [loadImage, if_neg (by simpa using hocc), (hfree s hs hocc).2]

/-- C5 witness: the theorem applied to the demo lot (one Occupied Resident
slot and one Free slot). -/
theorem save_load_roundtrip_witness :
    ∃ lot', load_parking_data (save_parking_data demoLot) = some lot' ∧
      lot'.total_slots = demoLot.total_slots ∧
      lot'.occupied_slots = (countOccupied lot'.slots : Int) ∧
      countOccupied lot'.slots = countOccupied demoLot.slots ∧
      ∀ s ∈ demoLot.slots, ∃ s', find_slot_by_id lot' s.slot_id = some s' ∧
        s'.owner_name = s.owner_name ∧ s'.license_plate = s.license_plate ∧
        s'.status = s.status ∧ s'.location = s.location :=
  save_load_roundtrip demoLot (by decide) (by decide) (by decide) (by decide)

/-- C8 counterexample: after a valid `LOT` line, the short record line
`SLOT|7` is not skipped: it contributes a slot with id `7` (and defaulted
fields) to the loaded lot, while the claim demands it contribute no slot. -/
theorem load_short_slot_counterexample :
    (load_parking_data ["LOT|3", "SLOT|7"]).map (fun l => l.slots.map
      (fun s => s.slot_id)) = some [7] ∧
    (load_parking_data ["LOT|3", "SLOT|7"]).map (fun l => l.slots.length) ≠ some 0 := by
  decide

/-- C8 (amended): for every file whose first line is a valid `LOT` line with
positive total, the load never aborts, and every line that does not begin with
`SLOT|` contributes nothing: the result equals the load of the file with all
such lines removed. (A line beginning with `SLOT|`, however short or
malformed, is parsed field-by-field with missing fields defaulted to zero or
empty, and contributes a slot unless its id duplicates an already-loaded
one.) -/
theorem load_ignores_non_slot_lines (first : String) (rest : List String) (total : Int)
    (hscan : scanLotTotal first = some total) (hpos : 0 < total) :
    (∃ lot', load_parking_data (first :: rest) = some lot') ∧
    load_parking_data (first :: rest) =
      load_parking_data (first :: rest.filter isSlotLine) := by
  unfold load_parking_data
  dsimp only
  rw [hscan]
  dsimp only
  rw [loadSlotLines_filter]
  constructor
  · rw [if_pos hpos]
    exact ⟨_, rfl⟩
  · rfl

/-- C8 witness: a file with a junk line loads successfully and loads the same
lot as the file with only its `SLOT|` lines. -/
theorem load_ignores_non_slot_lines_witness :
    (∃ lot', load_parking_data ["LOT|2", "junk", "SLOT|1|A||||0|0|0|0|0"] = some lot') ∧
    load_parking_data ["LOT|2", "junk", "SLOT|1|A||||0|0|0|0|0"] =
      load_parking_data
        ("LOT|2" :: List.filter isSlotLine ["junk", "SLOT|1|A||||0|0|0|0|0"]) :=
  load_ignores_non_slot_lines "LOT|2" ["junk", "SLOT|1|A||||0|0|0|0|0"] 2 (by decide)
    (by decide)

end Parking
